import Mathlib

/-! Startup-Advisory: credit ledger, appointment lifecycle and payout requests

A shallow embedding of the server actions in `src/actions/advisor.js`,
`src/actions/credits.js` and `src/actions/payout.js`.

The relational store behind `db` is an explicit value of type `Db` (one list of
rows per table, in creation order).  Every server action is a function from the
store before the call to an `Outcome`: the store after the call together with
what the action returned (`Except.ok`) or the message of the error it threw
(`Except.error`).  A `db.$transaction` block is a function to `Option Db`:
`none` means that a statement inside it threw and the whole block was rolled
back.  Instants are milliseconds since the epoch (`Nat`); the clock, the
authenticated Clerk user and the form fields are explicit arguments.
-/

namespace StartupAdvisory

/-! ## Data model -/

inductive Role where
  | FOUNDER | ADVISOR | ADMIN | UNASSIGNED
deriving DecidableEq, Repr

inductive TransactionType where
  | CREDIT_PURCHASE | APPOINTMENT_DEDUCTION
deriving DecidableEq, Repr

inductive AppointmentStatus where
  | SCHEDULED | COMPLETED | CANCELLED
deriving DecidableEq, Repr

inductive SlotStatus where
  | AVAILABLE | BOOKED
deriving DecidableEq, Repr

inductive PayoutStatus where
  | PROCESSING | PROCESSED
deriving DecidableEq, Repr

/-- A row of the user table (the columns the actions read or write). -/
structure User where
  id : String
  clerkUserId : String
  role : Role
  credits : Int
deriving DecidableEq, Repr

/-- A row of the credit-transaction table: one ledger entry. -/
structure CreditTransaction where
  userId : String
  amount : Int
  type : TransactionType
  packageId : Option String
  createdAt : Nat
deriving DecidableEq, Repr

/-- Modelled from the spec: the Prisma schema (the declaration of the
availability table) is not among the sources.  The columns are the ones the
data model lists; `appointment` is its optional back-reference to an
appointment, a relation: a query returns it only when it asks for it with
`include`. -/
structure Availability where
  id : String
  advisorId : String
  startTime : Nat
  endTime : Nat
  status : SlotStatus
  appointment : Option String
deriving DecidableEq, Repr

/-- A row of the appointment table. -/
structure Appointment where
  id : String
  founderId : String
  advisorId : String
  startTime : Nat
  endTime : Nat
  status : AppointmentStatus
  notes : Option String
  createdAt : Nat
deriving DecidableEq, Repr

/-- A row of the payout table. -/
structure Payout where
  advisorId : String
  amount : Int
  credits : Int
  platformFee : Int
  netAmount : Int
  paypalEmail : String
  status : PayoutStatus
  createdAt : Nat
deriving DecidableEq, Repr

/-- The relational store: one list of rows per table, oldest row first. -/
structure Db where
  users : List User
  creditTransactions : List CreditTransaction
  availabilities : List Availability
  appointments : List Appointment
  payouts : List Payout
deriving DecidableEq, Repr

/-- What a server action leaves behind: the store after the call and either
the returned value or the message of the thrown error. -/
structure Outcome (α : Type) where
  db : Db
  result : Except String α

/-- JavaScript truthiness of a form field or of the Clerk user id: `null` and
the empty string are falsy. -/
def truthy : Option String → Option String
  | some s => if s = "" then none else some s
  | none => none

/-! ## Store primitives (the Prisma calls the actions make) -/

/-- Prisma `db.user.findUnique({ where: { clerkUserId } })`. -/
def findUserByClerkId (db : Db) (clerkUserId : String) : Option User :=
  db.users.find? (fun u => decide (u.clerkUserId = clerkUserId))

/-- Prisma `db.user.findUnique({ where: { clerkUserId, role: "ADVISOR" } })`. -/
def findAdvisorByClerkId (db : Db) (clerkUserId : String) : Option User :=
  db.users.find? (fun u => decide (u.clerkUserId = clerkUserId) && decide (u.role = Role.ADVISOR))

/-- Prisma `db.user.findUnique({ where: { id } })`. -/
def findUserById (db : Db) (id : String) : Option User :=
  db.users.find? (fun u => decide (u.id = id))

/-- Prisma `db.appointment.findUnique({ where: { id } })`. -/
def findAppointment (db : Db) (id : String) : Option Appointment :=
  db.appointments.find? (fun a => decide (a.id = id))

/-- Prisma `db.appointment.findUnique({ where: { id, advisorId } })`. -/
def findAppointmentOfAdvisor (db : Db) (id advisorId : String) : Option Appointment :=
  db.appointments.find? (fun a => decide (a.id = id) && decide (a.advisorId = advisorId))

/-- Prisma `creditTransaction.create`: appends one ledger entry stamped with the
store's clock. -/
def creditTransactionCreate (db : Db) (userId : String) (amount : Int)
    (type : TransactionType) (packageId : Option String) (now : Nat) : Db :=
  { db with creditTransactions :=
      db.creditTransactions ++ [⟨userId, amount, type, packageId, now⟩] }

/-- The row update `credits: { increment: delta }` on the rows with the id. -/
def incrementCredits (id : String) (delta : Int) (u : User) : User :=
  if u.id = id then { u with credits := u.credits + delta } else u

/-- The row update `status: status` on the rows with the id. -/
def setStatus (id : String) (status : AppointmentStatus) (a : Appointment) : Appointment :=
  if a.id = id then { a with status := status } else a

/-- Prisma `user.update({ where: { id }, data: { credits: { increment: delta } } })`
(a decrement is a negative `delta`).  Prisma throws when no row has the id,
which is the `none` here. -/
def userUpdateCredits (db : Db) (id : String) (delta : Int) : Option Db :=
  if db.users.any (fun u => decide (u.id = id)) then
    some { db with users := db.users.map (incrementCredits id delta) }
  else none

/-- Prisma `appointment.update({ where: { id }, data: { status } })`; throws when no
row has the id. -/
def appointmentUpdateStatus (db : Db) (id : String) (status : AppointmentStatus) : Option Db :=
  if db.appointments.any (fun a => decide (a.id = id)) then
    some { db with appointments := db.appointments.map (setStatus id status) }
  else none

/-! ## `src/actions/advisor.js`: cancelAppointment -/

/-- The `db.$transaction` block of `cancelAppointment` (lines 215-268): the
status update, the two ledger entries and the two balance updates, all or
nothing. -/
def cancelTransaction (db : Db) (appointmentId : String) (appointment : Appointment)
    (now : Nat) : Option Db := do
  let db1 ← appointmentUpdateStatus db appointmentId AppointmentStatus.CANCELLED
  let db2 := creditTransactionCreate db1 appointment.founderId 2
    TransactionType.APPOINTMENT_DEDUCTION none now
  let db3 := creditTransactionCreate db2 appointment.advisorId (-2)
    TransactionType.APPOINTMENT_DEDUCTION none now
  let db4 ← userUpdateCredits db3 appointment.founderId 2
  userUpdateCredits db4 appointment.advisorId (-2)

/-- The body of the `try` block of `cancelAppointment` (lines 178-277). -/
def cancelAppointmentBody (db : Db) (userId : String) (appointmentIdField : Option String)
    (now : Nat) : Outcome Unit :=
  match findUserByClerkId db userId with
  | none => ⟨db, .error "User not found"⟩
  | some user =>
    match truthy appointmentIdField with
    | none => ⟨db, .error "Appointment ID is required"⟩
    | some appointmentId =>
      match findAppointment db appointmentId with
      | none => ⟨db, .error "Appointment not found"⟩
      | some appointment =>
        if appointment.advisorId ≠ user.id ∧ appointment.founderId ≠ user.id then
          ⟨db, .error "You are not authorized to cancel this appointment"⟩
        else
          match cancelTransaction db appointmentId appointment now with
          | none => ⟨db, .error "transaction rolled back"⟩
          | some db1 => ⟨db1, .ok ()⟩

/-- The `catch` blocks of the advisor and payout actions: an error thrown inside
the `try` is thrown again with `label` in front of its message; the store is
whatever the body left. -/
def rethrow {α : Type} (label : String) (o : Outcome α) : Outcome α :=
  match o.result with
  | .ok _ => o
  | .error msg => ⟨o.db, .error (label ++ msg)⟩

/-- Server action `cancelAppointment(formData)`: `authUserId` is what `auth()` reports,
`appointmentIdField` is `formData.get("appointmentId")`, `now` is the store's
clock. -/
def cancelAppointment (db : Db) (authUserId : Option String)
    (appointmentIdField : Option String) (now : Nat) : Outcome Unit :=
  match truthy authUserId with
  | none => ⟨db, .error "Unauthorized"⟩
  | some userId =>
    rethrow "Failed to cancel appointment: "
      (cancelAppointmentBody db userId appointmentIdField now)

/-! ## `src/actions/advisor.js`: markAppointmentCompleted -/

/-- The body of the `try` block of `markAppointmentCompleted` (lines 354-412);
`now` is `new Date()` read on the server. -/
def markAppointmentCompletedBody (db : Db) (userId : String)
    (appointmentIdField : Option String) (now : Nat) : Outcome Appointment :=
  match findAdvisorByClerkId db userId with
  | none => ⟨db, .error "Advisor not found"⟩
  | some advisor =>
    match truthy appointmentIdField with
    | none => ⟨db, .error "Appointment ID is required"⟩
    | some appointmentId =>
      match findAppointmentOfAdvisor db appointmentId advisor.id with
      | none => ⟨db, .error "Appointment not found or not authorized"⟩
      | some appointment =>
        if appointment.status ≠ AppointmentStatus.SCHEDULED then
          ⟨db, .error "Only scheduled appointments can be marked as completed"⟩
        else if now < appointment.endTime then
          ⟨db, .error "Cannot mark appointment as completed before the scheduled end time"⟩
        else
          match appointmentUpdateStatus db appointmentId AppointmentStatus.COMPLETED with
          | none => ⟨db, .error "record to update not found"⟩
          | some db1 =>
            match findAppointment db1 appointmentId with
            | none => ⟨db, .error "record to update not found"⟩
            | some updatedAppointment => ⟨db1, .ok updatedAppointment⟩

/-- Server action `markAppointmentCompleted(formData)`. -/
def markAppointmentCompleted (db : Db) (authUserId : Option String)
    (appointmentIdField : Option String) (now : Nat) : Outcome Appointment :=
  match truthy authUserId with
  | none => ⟨db, .error "Unauthorized"⟩
  | some userId =>
    rethrow "Failed to mark appointment as completed: "
      (markAppointmentCompletedBody db userId appointmentIdField now)

/-! ## `src/actions/advisor.js`: setAvailabilitySlots -/

/-- The UTF-16 code units of a list of characters: one unit for a character of
the basic plane, a surrogate pair above it. -/
def utf16Units : List Char → List Nat
  | [] => []
  | c :: cs =>
    (if c.toNat < 65536 then [c.toNat]
     else [55296 + (c.toNat - 65536) / 1024, 56320 + (c.toNat - 65536) % 1024])
      ++ utf16Units cs

/-- The order of JavaScript `<` on two sequences of code units: the first
differing unit decides, and a proper initial part is smaller. -/
def unitsLt : List Nat → List Nat → Bool
  | [], [] => false
  | [], _ :: _ => true
  | _ :: _, [] => false
  | a :: as, b :: bs => if a < b then true else if b < a then false else unitsLt as bs

/-- JavaScript `a < b` on two strings: they are compared by UTF-16 code
units. -/
def jsStringLt (a b : String) : Bool := unitsLt (utf16Units a.toList) (utf16Units b.toList)

/-- Prisma `db.availability.findMany({ where: { advisorId } })` (lines 44-48).
The query has no `include`, so the rows it returns carry the columns of the
table and no `appointment` relation. -/
def availabilityFindMany (db : Db) (advisorId : String) : List Availability :=
  (db.availabilities.filter (fun s => decide (s.advisorId = advisorId))).map
    (fun s => { s with appointment := none })

/-- Prisma `db.availability.deleteMany({ where: { id: { in: ids } } })`. -/
def availabilityDeleteMany (db : Db) (ids : List String) : Db :=
  { db with availabilities := db.availabilities.filter (fun s => decide (s.id ∉ ids)) }

/-- The body of the `try` block of `setAvailabilitySlots` (lines 19-79).
`parseDate` is `new Date(string)` (`none` for an Invalid Date, which the store
rejects) and `freshId` is the id the store gives the new row.  The two form
fields are compared as the strings they are (`startTime >= endTime`, line 39),
and `slot.appointment` is read on the rows `findMany` returned.  The deletion
and the insertion are separate statements, not one transaction. -/
def setAvailabilitySlotsBody (parseDate : String → Option Nat) (freshId : String) (db : Db)
    (userId : String) (startTimeField endTimeField : Option String) : Outcome Availability :=
  match findAdvisorByClerkId db userId with
  | none => ⟨db, .error "Advisor not found"⟩
  | some advisor =>
    match truthy startTimeField, truthy endTimeField with
    | some startTime, some endTime =>
      if jsStringLt startTime endTime = false then
        ⟨db, .error "Start time must be before end time"⟩
      else
        let existingSlots := availabilityFindMany db advisor.id
        let slotsWithNoAppointments := existingSlots.filter (fun slot => slot.appointment.isNone)
        let db1 :=
          if 0 < existingSlots.length ∧ 0 < slotsWithNoAppointments.length then
            availabilityDeleteMany db (slotsWithNoAppointments.map (fun slot => slot.id))
          else db
        match parseDate startTime, parseDate endTime with
        | some s, some e =>
          let newSlot : Availability := ⟨freshId, advisor.id, s, e, SlotStatus.AVAILABLE, none⟩
          ⟨{ db1 with availabilities := db1.availabilities ++ [newSlot] }, .ok newSlot⟩
        | _, _ => ⟨db1, .error "Invalid Date"⟩
    | _, _ => ⟨db, .error "Start time and end time are required"⟩

/-- Server action `setAvailabilitySlots(formData)`. -/
def setAvailabilitySlots (parseDate : String → Option Nat) (freshId : String) (db : Db)
    (authUserId : Option String) (startTimeField endTimeField : Option String) :
    Outcome Availability :=
  match truthy authUserId with
  | none => ⟨db, .error "Unauthorized"⟩
  | some userId =>
    rethrow "Failed to set availability: "
      (setAvailabilitySlotsBody parseDate freshId db userId startTimeField endTimeField)

/-! ## `src/actions/credits.js` -/

/-- The `PLAN_CREDITS` table (lines 8-12). -/
structure PlanCredits where
  free_user : Int
  standard : Int
  premium : Int

def PLAN_CREDITS : PlanCredits := { free_user := 0, standard := 10, premium := 24 }

def APPOINTMENT_CREDIT_COST : Int := 2

/-- The object `checkAndAllocateCredits` receives or returns: a user row, with
the `transactions` relation when the caller loaded it (the user row returned by
`tx.user.update` carries none). -/
structure SessionUser where
  id : String
  clerkUserId : String
  role : Role
  credits : Int
  transactions : Option (List CreditTransaction)
deriving DecidableEq, Repr

/-- Lines 31-47 of `checkAndAllocateCredits`: the plan the grant is made for and
its allotment, from Clerk's `has({ plan })`. -/
def resolvePlan (has : String → Bool) : Option (String × Int) :=
  if has "premium" then some ("premium", PLAN_CREDITS.premium)
  else if has "standard" then some ("standard", PLAN_CREDITS.standard)
  else if has "free_user" then some ("free_user", PLAN_CREDITS.free_user)
  else none

/-- The `db.$transaction` block of `checkAndAllocateCredits` (lines 75-97): one
CREDIT_PURCHASE entry and the matching increment; it returns the updated row. -/
def allocateTransaction (db : Db) (userId : String) (currentPlan : String)
    (creditsToAllocate : Int) (now : Nat) : Option (Db × SessionUser) := do
  let db1 := creditTransactionCreate db userId creditsToAllocate
    TransactionType.CREDIT_PURCHASE (some currentPlan) now
  let db2 ← userUpdateCredits db1 userId creditsToAllocate
  let updatedUser ← findUserById db2 userId
  some (db2, ⟨updatedUser.id, updatedUser.clerkUserId, updatedUser.role,
    updatedUser.credits, none⟩)

/-- Lines 57-72 of `checkAndAllocateCredits`: whether the first element of
`user.transactions` is a grant of the same plan in the current month. -/
def alreadyAllocated (formatMonth : Nat → String) (transactions : List CreditTransaction)
    (currentPlan : String) (now : Nat) : Bool :=
  match transactions with
  | [] => false
  | latestTransaction :: _ =>
    decide (formatMonth latestTransaction.createdAt = formatMonth now) &&
      decide (latestTransaction.packageId = some currentPlan)

/-- Server action `checkAndAllocateCredits(user)`.  `formatMonth` is date-fns
`format(date, "yyyy-MM")`, `has` is Clerk's plan check, `now` the clock.  The
result is the store after the call and the returned value (`none` is `null`).
Every error thrown inside is caught and turned into `null` (lines 104-110),
also the TypeError of reading `user.transactions.length` when the relation was
not loaded. -/
def checkAndAllocateCredits (formatMonth : Nat → String) (has : String → Bool) (db : Db)
    (user : Option SessionUser) (now : Nat) : Db × Option SessionUser :=
  match user with
  | none => (db, none)
  | some user =>
    if user.role ≠ Role.FOUNDER then (db, some user)
    else
      match resolvePlan has with
      | none => (db, some user)
      | some (currentPlan, creditsToAllocate) =>
        match user.transactions with
        | none => (db, none)
        | some transactions =>
          if alreadyAllocated formatMonth transactions currentPlan now then (db, some user)
          else
            match allocateTransaction db user.id currentPlan creditsToAllocate now with
            | none => (db, none)
            | some (db1, updatedUser) => (db1, some updatedUser)

/-- The `db.$transaction` block of `deductCreditsForAppointment` (lines 136-180):
two ledger entries and two balance updates; it returns the founder's updated
row. -/
def deductTransaction (db : Db) (user advisor : User) (now : Nat) : Option (Db × User) := do
  let db1 := creditTransactionCreate db user.id (-APPOINTMENT_CREDIT_COST)
    TransactionType.APPOINTMENT_DEDUCTION none now
  let db2 := creditTransactionCreate db1 advisor.id APPOINTMENT_CREDIT_COST
    TransactionType.APPOINTMENT_DEDUCTION none now
  let db3 ← userUpdateCredits db2 user.id (-APPOINTMENT_CREDIT_COST)
  let updatedUser ← findUserById db3 user.id
  let db4 ← userUpdateCredits db3 advisor.id APPOINTMENT_CREDIT_COST
  some (db4, updatedUser)

/-- Server action `deductCreditsForAppointment(userId, advisorId)`.  `Except.ok user` is the
returned `{ success: true, user }`, `Except.error msg` the returned
`{ success: false, error: msg }` (nothing is thrown to the caller).  Reading
`user.credits` of a missing user is a TypeError, caught like the rest. -/
def deductCreditsForAppointment (db : Db) (userId advisorId : String) (now : Nat) :
    Outcome User :=
  match findUserById db userId with
  | none => ⟨db, .error "Cannot read properties of null"⟩
  | some user =>
    if user.credits < APPOINTMENT_CREDIT_COST then
      ⟨db, .error "Insufficient credits to book an appointment"⟩
    else
      match findUserById db advisorId with
      | none => ⟨db, .error "Advisor not found"⟩
      | some advisor =>
        match deductTransaction db user advisor now with
        | none => ⟨db, .error "transaction rolled back"⟩
        | some (db1, result) => ⟨db1, .ok result⟩

/-! ## `src/actions/payout.js`: requestPayout -/

def CREDIT_VALUE : Int := 10

def PLATFORM_FEE_PER_CREDIT : Int := 2

def ADVISOR_EARNINGS_PER_CREDIT : Int := 8

/-- Prisma `db.payout.findFirst({ where: { advisorId, status: "PROCESSING" } })`. -/
def findProcessingPayout (db : Db) (advisorId : String) : Option Payout :=
  db.payouts.find? (fun p =>
    decide (p.advisorId = advisorId) && decide (p.status = PayoutStatus.PROCESSING))

/-- The body of the `try` block of `requestPayout` (lines 21-81). -/
def requestPayoutBody (db : Db) (userId : String) (paypalEmailField : Option String)
    (now : Nat) : Outcome Payout :=
  match findAdvisorByClerkId db userId with
  | none => ⟨db, .error "Advisor not found"⟩
  | some advisor =>
    match truthy paypalEmailField with
    | none => ⟨db, .error "PayPal email is required"⟩
    | some paypalEmail =>
      match findProcessingPayout db advisor.id with
      | some _ => ⟨db, .error
          "You already have a pending payout request. Please wait for it to be processed."⟩
      | none =>
        let creditCount := advisor.credits
        if creditCount = 0 then ⟨db, .error "No credits available for payout"⟩
        else if creditCount < 1 then ⟨db, .error "Minimum 1 credit required for payout"⟩
        else
          let totalAmount := creditCount * CREDIT_VALUE
          let platformFee := creditCount * PLATFORM_FEE_PER_CREDIT
          let netAmount := creditCount * ADVISOR_EARNINGS_PER_CREDIT
          let payout : Payout := ⟨advisor.id, totalAmount, creditCount, platformFee,
            netAmount, paypalEmail, PayoutStatus.PROCESSING, now⟩
          ⟨{ db with payouts := db.payouts ++ [payout] }, .ok payout⟩

/-- Server action `requestPayout(formData)`. -/
def requestPayout (db : Db) (authUserId : Option String) (paypalEmailField : Option String)
    (now : Nat) : Outcome Payout :=
  match truthy authUserId with
  | none => ⟨db, .error "Unauthorized"⟩
  | some userId =>
    rethrow "Failed to request payout: " (requestPayoutBody db userId paypalEmailField now)

/-! ## `src/actions/payout.js`: getAdvisorEarnings -/

/-- The object `getAdvisorEarnings` returns under `earnings`.  The average is
a quotient; it is kept as the exact rational, which JavaScript rounds to a
double. -/
structure Earnings where
  totalEarnings : Int
  thisMonthEarnings : Int
  completedAppointments : Nat
  averageEarningsPerMonth : ℚ
  availableCredits : Int
  availablePayout : Int

/-- The body of the `try` block of `getAdvisorEarnings` (lines 137-191).
`startOfMonth` is `setDate(1); setHours(0, 0, 0, 0)` on the clock reading and
`getMonth` is `Date.prototype.getMonth` (January is 0). -/
def getAdvisorEarningsBody (startOfMonth getMonth : Nat → Nat) (db : Db) (userId : String)
    (now : Nat) : Outcome Earnings :=
  match findAdvisorByClerkId db userId with
  | none => ⟨db, .error "Advisor not found"⟩
  | some advisor =>
    let completedAppointments := db.appointments.filter (fun a =>
      decide (a.advisorId = advisor.id) && decide (a.status = AppointmentStatus.COMPLETED))
    let currentMonth := startOfMonth now
    let thisMonthAppointments := completedAppointments.filter (fun appointment =>
      decide (currentMonth ≤ appointment.createdAt))
    let totalEarnings := advisor.credits * ADVISOR_EARNINGS_PER_CREDIT
    let thisMonthEarnings : Int :=
      (thisMonthAppointments.length : Int) * 2 * ADVISOR_EARNINGS_PER_CREDIT
    let averageEarningsPerMonth : ℚ :=
      if totalEarnings > 0 then (totalEarnings : ℚ) / ((max 1 (getMonth now + 1) : Nat) : ℚ)
      else 0
    let availableCredits := advisor.credits
    let availablePayout := availableCredits * ADVISOR_EARNINGS_PER_CREDIT
    ⟨db, .ok ⟨totalEarnings, thisMonthEarnings, completedAppointments.length,
      averageEarningsPerMonth, availableCredits, availablePayout⟩⟩

/-- Server action `getAdvisorEarnings()`. -/
def getAdvisorEarnings (startOfMonth getMonth : Nat → Nat) (db : Db)
    (authUserId : Option String) (now : Nat) : Outcome Earnings :=
  match truthy authUserId with
  | none => ⟨db, .error "Unauthorized"⟩
  | some userId =>
    rethrow "Failed to fetch advisor earnings: "
      (getAdvisorEarningsBody startOfMonth getMonth db userId now)

/-! ## `requestPayout`, one awaited store operation at a time -/

/-- Where a `requestPayout` call stands between its awaited store operations:
before `db.user.findUnique` (line 22), before `db.payout.findFirst` (line 40),
before `db.payout.create` (line 69), or finished. -/
inductive PayoutCall where
  | start (authUserId paypalEmailField : Option String)
  | advisorRead (advisor : Option User) (paypalEmailField : Option String)
  | pendingRead (advisor : User) (paypalEmail : String) (existingPendingPayout : Option Payout)
  | finished (result : Except String Payout)

/-- One awaited store operation of a `requestPayout` call, with the
synchronous code that follows it up to the next `await`. -/
def payoutStep (now : Nat) (db : Db) : PayoutCall → Db × PayoutCall
  | .start authUserId paypalEmailField =>
    match truthy authUserId with
    | none => (db, .finished (.error "Unauthorized"))
    | some userId => (db, .advisorRead (findAdvisorByClerkId db userId) paypalEmailField)
  | .advisorRead advisor paypalEmailField =>
    match advisor with
    | none => (db, .finished (.error ("Failed to request payout: " ++ "Advisor not found")))
    | some advisor =>
      match truthy paypalEmailField with
      | none =>
        (db, .finished (.error ("Failed to request payout: " ++ "PayPal email is required")))
      | some paypalEmail =>
        (db, .pendingRead advisor paypalEmail (findProcessingPayout db advisor.id))
  | .pendingRead advisor paypalEmail existingPendingPayout =>
    match existingPendingPayout with
    | some _ => (db, .finished (.error ("Failed to request payout: " ++
        "You already have a pending payout request. Please wait for it to be processed.")))
    | none =>
      let creditCount := advisor.credits
      if creditCount = 0 then
        (db, .finished (.error ("Failed to request payout: " ++
          "No credits available for payout")))
      else if creditCount < 1 then
        (db, .finished (.error ("Failed to request payout: " ++
          "Minimum 1 credit required for payout")))
      else
        let payout : Payout := ⟨advisor.id, creditCount * CREDIT_VALUE, creditCount,
          creditCount * PLATFORM_FEE_PER_CREDIT, creditCount * ADVISOR_EARNINGS_PER_CREDIT,
          paypalEmail, PayoutStatus.PROCESSING, now⟩
        ({ db with payouts := db.payouts ++ [payout] }, .finished (.ok payout))
  | .finished result => (db, .finished result)

/-- Two `requestPayout` calls in flight on one store. -/
structure TwoCalls where
  db : Db
  first : PayoutCall
  second : PayoutCall

/-- An interleaving: each entry of the schedule lets the first (`true`) or the
second (`false`) call do its next store operation. -/
def runSchedule (now : Nat) : List Bool → TwoCalls → TwoCalls
  | [], st => st
  | true :: rest, st =>
    runSchedule now rest
      ⟨(payoutStep now st.db st.first).1, (payoutStep now st.db st.first).2, st.second⟩
  | false :: rest, st =>
    runSchedule now rest
      ⟨(payoutStep now st.db st.second).1, st.first, (payoutStep now st.db st.second).2⟩

/-! ## The plan order, in the words of the specification -/

/-- The plan tiers in ascending order, with the monthly allotment of each. -/
def tiersAscending : List (String × Int) :=
  [("free_user", 0), ("standard", 10), ("premium", 24)]

/-- The highest active tier: the last of the active ones in ascending order. -/
def highestActiveTier (has : String → Bool) : Option (String × Int) :=
  (tiersAscending.filter (fun t => has t.1)).getLast?

/-! ## Observations on a store -/

/-- The sum of the amounts of a user's ledger entries. -/
def ledgerSum (db : Db) (userId : String) : Int :=
  ((db.creditTransactions.filter (fun t => decide (t.userId = userId))).map
    (fun t => t.amount)).sum

/-- The ledger and the balances agree: every user's `credits` is the sum of
that user's ledger entries. -/
def LedgerConsistent (db : Db) : Prop :=
  ∀ u ∈ db.users, u.credits = ledgerSum db u.id

instance (db : Db) : Decidable (LedgerConsistent db) :=
  inferInstanceAs (Decidable (∀ u ∈ db.users, u.credits = ledgerSum db u.id))

/-- The user ids are a key of the user table. -/
def UniqueUserIds (db : Db) : Prop := (db.users.map (fun u => u.id)).Nodup

instance (db : Db) : Decidable (UniqueUserIds db) :=
  inferInstanceAs (Decidable (List.Nodup (db.users.map (fun u : User => u.id))))

/-- No balance is negative. -/
def NonNegativeCredits (db : Db) : Prop := ∀ u ∈ db.users, 0 ≤ u.credits

instance (db : Db) : Decidable (NonNegativeCredits db) :=
  inferInstanceAs (Decidable (∀ u ∈ db.users, 0 ≤ u.credits))

/-- The number of an advisor's payouts with status PROCESSING. -/
def processingCount (db : Db) (advisorId : String) : Nat :=
  (db.payouts.filter (fun p =>
    decide (p.advisorId = advisorId) && decide (p.status = PayoutStatus.PROCESSING))).length

/-- Every advisor has at most one payout with status PROCESSING. -/
def AtMostOneProcessing (db : Db) : Prop :=
  ∀ advisorId : String, processingCount db advisorId ≤ 1

/-- The most recent CREDIT_PURCHASE ledger entry of a user (the ledger is in
creation order, so it is the last one). -/
def latestPurchase (db : Db) (userId : String) : Option CreditTransaction :=
  (db.creditTransactions.filter (fun t =>
    decide (t.userId = userId) && decide (t.type = TransactionType.CREDIT_PURCHASE))).getLast?

/-- The slot ids are a key of the availability table. -/
def UniqueSlotIds (db : Db) : Prop := (db.availabilities.map (fun s => s.id)).Nodup

instance (db : Db) : Decidable (UniqueSlotIds db) :=
  inferInstanceAs (Decidable (List.Nodup (db.availabilities.map (fun s : Availability => s.id))))

/-- How far a user's balance is ahead of the user's ledger entries. -/
def excess (db : Db) (u : User) : Int := u.credits - ledgerSum db u.id

/-- Every user of `db'` is a user of `db` whose excess moved by `δ` of the id. -/
def Shifts (δ : String → Int) (db db' : Db) : Prop :=
  ∀ u' ∈ db'.users, ∃ u ∈ db.users, u'.id = u.id ∧ excess db' u' = excess db u + δ u.id

/-! ## Sample stores -/

/-- Founder `f1` (8 credits) and advisor `a1` (2 credits) after one booking: the
appointment `p1` between them is SCHEDULED and ends at instant 5000. -/
def dbScheduled : Db :=
  { users := [⟨"f1", "cf", Role.FOUNDER, 8⟩, ⟨"a1", "ca", Role.ADVISOR, 2⟩]
    creditTransactions :=
      [⟨"f1", 10, TransactionType.CREDIT_PURCHASE, some "standard", 0⟩,
       ⟨"f1", -2, TransactionType.APPOINTMENT_DEDUCTION, none, 10⟩,
       ⟨"a1", 2, TransactionType.APPOINTMENT_DEDUCTION, none, 10⟩]
    availabilities := []
    appointments := [⟨"p1", "f1", "a1", 3000, 5000, AppointmentStatus.SCHEDULED, none, 10⟩]
    payouts := [] }

/-- The store of `dbScheduled` with two appointments between `f1` and `a1` that
are over: `p1` is CANCELLED (its refund is in the ledger), `p2` is COMPLETED. -/
def dbTerminal : Db :=
  { users := [⟨"f1", "cf", Role.FOUNDER, 8⟩, ⟨"a1", "ca", Role.ADVISOR, 2⟩]
    creditTransactions :=
      [⟨"f1", 10, TransactionType.CREDIT_PURCHASE, some "standard", 0⟩,
       ⟨"f1", -2, TransactionType.APPOINTMENT_DEDUCTION, none, 10⟩,
       ⟨"a1", 2, TransactionType.APPOINTMENT_DEDUCTION, none, 10⟩,
       ⟨"f1", 2, TransactionType.APPOINTMENT_DEDUCTION, none, 20⟩,
       ⟨"a1", -2, TransactionType.APPOINTMENT_DEDUCTION, none, 20⟩,
       ⟨"f1", -2, TransactionType.APPOINTMENT_DEDUCTION, none, 30⟩,
       ⟨"a1", 2, TransactionType.APPOINTMENT_DEDUCTION, none, 30⟩]
    availabilities := []
    appointments :=
      [⟨"p1", "f1", "a1", 3000, 5000, AppointmentStatus.CANCELLED, none, 10⟩,
       ⟨"p2", "f1", "a1", 6000, 8000, AppointmentStatus.COMPLETED, none, 30⟩]
    payouts := [] }

/-- The store of `dbScheduled` after the advisor's 2 credits were paid out (a
PROCESSED payout and its debit entry): the advisor holds 0 credits while `p1`
is still SCHEDULED. -/
def dbPaidOut : Db :=
  { users := [⟨"f1", "cf", Role.FOUNDER, 8⟩, ⟨"a1", "ca", Role.ADVISOR, 0⟩]
    creditTransactions :=
      [⟨"f1", 10, TransactionType.CREDIT_PURCHASE, some "standard", 0⟩,
       ⟨"f1", -2, TransactionType.APPOINTMENT_DEDUCTION, none, 10⟩,
       ⟨"a1", 2, TransactionType.APPOINTMENT_DEDUCTION, none, 10⟩,
       ⟨"a1", -2, TransactionType.APPOINTMENT_DEDUCTION, none, 20⟩]
    availabilities := []
    appointments := [⟨"p1", "f1", "a1", 3000, 5000, AppointmentStatus.SCHEDULED, none, 10⟩]
    payouts := [⟨"a1", 20, 2, 4, 16, "a1@example.com", PayoutStatus.PROCESSED, 15⟩] }

/-- Advisor `a1` holds 5 credits and has no payout; advisor `a2` holds 3 credits
and has a PROCESSING payout. -/
def dbPayout : Db :=
  { users := [⟨"a1", "ca", Role.ADVISOR, 5⟩, ⟨"a2", "cb", Role.ADVISOR, 3⟩]
    creditTransactions := []
    availabilities := []
    appointments := []
    payouts := [⟨"a2", 30, 3, 6, 24, "a2@example.com", PayoutStatus.PROCESSING, 5⟩] }

/-- Advisor `a1` has a free slot `s1` and a slot `s2` with an attached
appointment; advisor `a2` has a free slot `s3`. -/
def dbSlots : Db :=
  { users := [⟨"a1", "ca", Role.ADVISOR, 0⟩, ⟨"a2", "cb", Role.ADVISOR, 0⟩]
    creditTransactions := []
    availabilities :=
      [⟨"s1", "a1", 1000, 2000, SlotStatus.AVAILABLE, none⟩,
       ⟨"s2", "a1", 3000, 5000, SlotStatus.BOOKED, some "p1"⟩,
       ⟨"s3", "a2", 1000, 2000, SlotStatus.AVAILABLE, none⟩]
    appointments := [⟨"p1", "f1", "a1", 3000, 5000, AppointmentStatus.SCHEDULED, none, 10⟩]
    payouts := [] }

/-- Founder `f1` with 10 credits and advisor `a1` with none, before any
booking. -/
def dbBeforeBooking : Db :=
  { users := [⟨"f1", "cf", Role.FOUNDER, 10⟩, ⟨"a1", "ca", Role.ADVISOR, 0⟩]
    creditTransactions := [⟨"f1", 10, TransactionType.CREDIT_PURCHASE, some "standard", 0⟩]
    availabilities := []
    appointments := []
    payouts := [] }

/-- Founder `f1` who has never been granted credits. -/
def dbNewFounder : Db :=
  { users := [⟨"f1", "cf", Role.FOUNDER, 0⟩]
    creditTransactions := []
    availabilities := []
    appointments := []
    payouts := [] }

/-- A `new Date(string)` on the two strings of the 10:00-10:30 slot. -/
def sampleParseDate (s : String) : Option Nat :=
  if s = "2025-01-01T10:00" then some 36000000
  else if s = "2025-01-01T10:30" then some 37800000
  else none

/-- A month formatter on a toy calendar: instants below 1000 are in January. -/
def sampleFormatMonth (t : Nat) : String :=
  if t < 1000 then "2025-01" else "2025-02"

/-- A founder whose only active plan is `standard`. -/
def hasStandard (plan : String) : Bool := plan == "standard"

/-- The appointment `p1` of the sample stores while it is SCHEDULED. -/
def sampleAppointment : Appointment :=
  ⟨"p1", "f1", "a1", 3000, 5000, AppointmentStatus.SCHEDULED, none, 10⟩

/-- The store after `f1` paid for a booking with `a1` in `dbBeforeBooking` and
the booking action added the appointment `p1`. -/
def dbBooked : Db :=
  { (deductCreditsForAppointment dbBeforeBooking "f1" "a1" 10).db with
    appointments := [sampleAppointment] }

/-- The payout Scenario B expects for an advisor with 5 credits. -/
def samplePayout : Payout :=
  ⟨"a1", 50, 5, 10, 40, "a1@example.com", PayoutStatus.PROCESSING, 60⟩

/-- The session object of `f1` at a first login, no grant yet. -/
def sampleFounder : SessionUser := ⟨"f1", "cf", Role.FOUNDER, 0, some []⟩

/-- The session object of `f1` at a second login, the grant of instant 10 first
in `transactions`. -/
def sampleFounderAgain : SessionUser :=
  ⟨"f1", "cf", Role.FOUNDER, 10,
    some [⟨"f1", 10, TransactionType.CREDIT_PURCHASE, some "standard", 10⟩]⟩

/-- The first instant of the month on the toy calendar of `sampleFormatMonth`
(January starts at 0, February at 1000). -/
def sampleStartOfMonth (t : Nat) : Nat := if t < 1000 then 0 else 1000

/-- The zero-based month number on the toy calendar. -/
def sampleGetMonth (t : Nat) : Nat := if t < 1000 then 0 else 1

/-- The store after the founder cancelled `p1` in `dbPaidOut`: the advisor
`a1` holds -2 credits. -/
def dbOverdrawn : Db := (cancelAppointment dbPaidOut (some "cf") (some "p1") 60).db

/-- The store after the advisor marked `p1` of `dbScheduled` completed at
instant 5000 (February on the toy calendar); `p1` was created at instant 10
(January). -/
def dbCompleted : Db := (markAppointmentCompleted dbScheduled (some "ca") (some "p1") 5000).db

/-- A `new Date(string)` on two ISO timestamps with offsets: 10:00 at UTC and
10:30 at UTC+05:00 (which is 05:30 UTC) on 2025-01-01, in epoch milliseconds. -/
def sampleParseOffsets (s : String) : Option Nat :=
  if s = "2025-01-01T10:00+00:00" then some 1735725600000
  else if s = "2025-01-01T10:30+05:00" then some 1735709400000
  else none

/-! ## The ledger and the balances move together -/

theorem ledgerSum_create (db : Db) (uid : String) (amt : Int) (ty : TransactionType)
    (pk : Option String) (now : Nat) (id : String) :
    ledgerSum (creditTransactionCreate db uid amt ty pk now) id
      = ledgerSum db id + (if uid = id then amt else 0) := by
  unfold ledgerSum creditTransactionCreate
  by_cases h : uid = id <;> simp [List.filter_append, List.filter_cons, h]

theorem shifts_create (db : Db) (uid : String) (amt : Int) (ty : TransactionType)
    (pk : Option String) (now : Nat) :
    Shifts (fun i => if uid = i then -amt else 0) db
      (creditTransactionCreate db uid amt ty pk now) := by
  intro u hu
  refine ⟨u, hu, rfl, ?_⟩
  simp only [excess, ledgerSum_create]
  split <;> omega

theorem incrementCredits_id (id : String) (d : Int) (u : User) :
    (incrementCredits id d u).id = u.id := by
  unfold incrementCredits
  split <;> rfl

theorem incrementCredits_credits (id : String) (d : Int) (u : User) :
    (incrementCredits id d u).credits = u.credits + (if u.id = id then d else 0) := by
  unfold incrementCredits
  split <;> simp

theorem incrementCredits_of_eq {id : String} {d : Int} {u : User} (h : u.id = id) :
    incrementCredits id d u = { u with credits := u.credits + d } := by
  simp [incrementCredits, h]

theorem incrementCredits_of_ne {id : String} {d : Int} {u : User} (h : u.id ≠ id) :
    incrementCredits id d u = u := by
  simp [incrementCredits, h]

theorem userUpdateCredits_eq {db db' : Db} {id : String} {d : Int}
    (h : userUpdateCredits db id d = some db') :
    db' = { db with users := db.users.map (incrementCredits id d) } ∧
    ∃ u ∈ db.users, u.id = id := by
  unfold userUpdateCredits at h
  split at h
  · rename_i hany
    simp only [Option.some.injEq] at h
    refine ⟨h.symm, ?_⟩
    simpa using hany
  · simp at h

theorem shifts_update {db db' : Db} {id : String} {d : Int}
    (h : userUpdateCredits db id d = some db') :
    Shifts (fun i => if i = id then d else 0) db db' := by
  obtain ⟨rfl, -⟩ := userUpdateCredits_eq h
  intro u' hu'
  simp only [List.mem_map] at hu'
  obtain ⟨u, hu, rfl⟩ := hu'
  refine ⟨u, hu, incrementCredits_id id d u, ?_⟩
  simp only [excess, ledgerSum, incrementCredits_id, incrementCredits_credits]
  split <;> omega

theorem appointmentUpdateStatus_eq {db db' : Db} {id : String} {st : AppointmentStatus}
    (h : appointmentUpdateStatus db id st = some db') :
    db' = { db with appointments := db.appointments.map (setStatus id st) } := by
  unfold appointmentUpdateStatus at h
  split at h
  · simp only [Option.some.injEq] at h
    exact h.symm
  · simp at h

theorem shifts_status {db db' : Db} {id : String} {st : AppointmentStatus}
    (h : appointmentUpdateStatus db id st = some db') :
    Shifts (fun _ => 0) db db' := by
  rw [appointmentUpdateStatus_eq h]
  intro u hu
  exact ⟨u, hu, rfl, by simp [excess, ledgerSum]⟩

theorem Shifts.trans {δ₁ δ₂ : String → Int} {a b c : Db}
    (h₁ : Shifts δ₁ a b) (h₂ : Shifts δ₂ b c) :
    Shifts (fun i => δ₁ i + δ₂ i) a c := by
  intro w hw
  obtain ⟨v, hv, hid, hex⟩ := h₂ w hw
  obtain ⟨u, hu, hid', hex'⟩ := h₁ v hv
  refine ⟨u, hu, hid.trans hid', ?_⟩
  rw [hex, hex', hid']
  ring

theorem consistent_of_shifts {δ : String → Int} {db db' : Db}
    (hc : LedgerConsistent db) (hs : Shifts δ db db') (h0 : ∀ i, δ i = 0) :
    LedgerConsistent db' := by
  intro u' hu'
  obtain ⟨u, hu, -, hex⟩ := hs u' hu'
  have := hc u hu
  simp only [excess, h0] at hex
  omega

theorem cancelTransaction_shifts {db db' : Db} {id : String} {ap : Appointment} {now : Nat}
    (h : cancelTransaction db id ap now = some db') :
    ∃ δ : String → Int, Shifts δ db db' ∧ ∀ i, δ i = 0 := by
  simp only [cancelTransaction, Option.bind_eq_bind, Option.bind_eq_some] at h
  obtain ⟨db1, h1, db4, h4, h5⟩ := h
  refine ⟨_, ((((shifts_status h1).trans (shifts_create _ _ _ _ _ _)).trans
    (shifts_create _ _ _ _ _ _)).trans (shifts_update h4)).trans (shifts_update h5), ?_⟩
  intro i
  have e₁ : (i = ap.founderId) = (ap.founderId = i) := propext eq_comm
  have e₂ : (i = ap.advisorId) = (ap.advisorId = i) := propext eq_comm
  simp only [e₁, e₂]
  split_ifs <;> omega

theorem allocateTransaction_shifts {db db' : Db} {uid plan : String} {n : Int} {now : Nat}
    {r : SessionUser} (h : allocateTransaction db uid plan n now = some (db', r)) :
    ∃ δ : String → Int, Shifts δ db db' ∧ ∀ i, δ i = 0 := by
  simp only [allocateTransaction, Option.bind_eq_bind, Option.bind_eq_some,
    Option.some.injEq, Prod.mk.injEq] at h
  obtain ⟨db2, h2, u, -, rfl, -⟩ := h
  refine ⟨_, (shifts_create _ _ _ _ _ _).trans (shifts_update h2), ?_⟩
  intro i
  have e₁ : (i = uid) = (uid = i) := propext eq_comm
  simp only [e₁]
  split_ifs <;> omega

theorem deductTransaction_shifts {db db' : Db} {user advisor r : User} {now : Nat}
    (h : deductTransaction db user advisor now = some (db', r)) :
    ∃ δ : String → Int, Shifts δ db db' ∧ ∀ i, δ i = 0 := by
  simp only [deductTransaction, Option.bind_eq_bind, Option.bind_eq_some,
    Option.some.injEq, Prod.mk.injEq] at h
  obtain ⟨db3, h3, u, -, db4, h4, rfl, -⟩ := h
  refine ⟨_, (((shifts_create _ _ _ _ _ _).trans (shifts_create _ _ _ _ _ _)).trans
    (shifts_update h3)).trans (shifts_update h4), ?_⟩
  intro i
  have e₁ : (i = user.id) = (user.id = i) := propext eq_comm
  have e₂ : (i = advisor.id) = (advisor.id = i) := propext eq_comm
  simp only [e₁, e₂, APPOINTMENT_CREDIT_COST]
  split_ifs <;> omega

/-! ## The transactions, written out -/

theorem userUpdateCredits_some_iff (db db' : Db) (id : String) (d : Int) :
    userUpdateCredits db id d = some db' ↔
      (∃ u ∈ db.users, u.id = id) ∧
        db' = { db with users := db.users.map (incrementCredits id d) } := by
  unfold userUpdateCredits
  split
  · rename_i hany
    have hex : ∃ u ∈ db.users, u.id = id := by simpa using hany
    simp only [Option.some.injEq, hex, true_and]
    exact eq_comm
  · rename_i hany
    have hex : ¬ ∃ u ∈ db.users, u.id = id := by simpa using hany
    simp [hex]

theorem appointmentUpdateStatus_some_iff (db db' : Db) (id : String) (st : AppointmentStatus) :
    appointmentUpdateStatus db id st = some db' ↔
      (∃ a ∈ db.appointments, a.id = id) ∧
        db' = { db with appointments := db.appointments.map (setStatus id st) } := by
  unfold appointmentUpdateStatus
  split
  · rename_i hany
    have hex : ∃ a ∈ db.appointments, a.id = id := by simpa using hany
    simp only [Option.some.injEq, hex, true_and]
    exact eq_comm
  · rename_i hany
    have hex : ¬ ∃ a ∈ db.appointments, a.id = id := by simpa using hany
    simp [hex]

theorem exists_id_map_incrementCredits (users : List User) (i j : String) (d : Int) :
    (∃ u ∈ users.map (incrementCredits i d), u.id = j) ↔ ∃ u ∈ users, u.id = j := by
  simp [incrementCredits_id]

/-- The store `cancelAppointment`'s transaction leaves when it commits. -/
theorem cancelTransaction_some_iff (db db' : Db) (id : String) (ap : Appointment) (now : Nat) :
    cancelTransaction db id ap now = some db' ↔
      (∃ a ∈ db.appointments, a.id = id) ∧ (∃ u ∈ db.users, u.id = ap.founderId) ∧
      (∃ u ∈ db.users, u.id = ap.advisorId) ∧
      db' =
        { users := (db.users.map (incrementCredits ap.founderId 2)).map
            (incrementCredits ap.advisorId (-2))
          creditTransactions := db.creditTransactions ++
            [⟨ap.founderId, 2, TransactionType.APPOINTMENT_DEDUCTION, none, now⟩,
             ⟨ap.advisorId, -2, TransactionType.APPOINTMENT_DEDUCTION, none, now⟩]
          availabilities := db.availabilities
          appointments := db.appointments.map (setStatus id AppointmentStatus.CANCELLED)
          payouts := db.payouts } := by
  simp only [cancelTransaction, Option.bind_eq_bind, Option.bind_eq_some,
    userUpdateCredits_some_iff, appointmentUpdateStatus_some_iff, creditTransactionCreate]
  constructor
  · rintro ⟨db1, ⟨h1, rfl⟩, db4, ⟨h4, rfl⟩, h5, rfl⟩
    refine ⟨h1, h4, ?_, ?_⟩
    · exact (exists_id_map_incrementCredits _ _ _ _).mp h5
    · simp
  · rintro ⟨h1, h4, h5, rfl⟩
    refine ⟨_, ⟨h1, rfl⟩, _, ⟨h4, rfl⟩, ?_, ?_⟩
    · exact (exists_id_map_incrementCredits _ _ _ _).mpr h5
    · simp

theorem find?_id_map_incrementCredits (users : List User) (i j : String) (d : Int) :
    (users.map (incrementCredits i d)).find? (fun u => decide (u.id = j))
      = (users.find? (fun u => decide (u.id = j))).map (incrementCredits i d) := by
  rw [List.find?_map]
  have hfun : ((fun u : User => decide (u.id = j)) ∘ incrementCredits i d)
      = fun u => decide (u.id = j) := by
    funext u
    simp [incrementCredits_id]
  rw [hfun]

theorem find?_id_map_setStatus (aps : List Appointment) (i j : String)
    (st : AppointmentStatus) :
    (aps.map (setStatus i st)).find? (fun a => decide (a.id = j))
      = (aps.find? (fun a => decide (a.id = j))).map (setStatus i st) := by
  rw [List.find?_map]
  have hfun : ((fun a : Appointment => decide (a.id = j)) ∘ setStatus i st)
      = fun a => decide (a.id = j) := by
    funext a
    unfold setStatus
    by_cases h : a.id = i <;> simp [h]
  rw [hfun]

theorem findUserById_isSome_of_exists (db : Db) (j : String)
    (h : ∃ u ∈ db.users, u.id = j) : ∃ f, findUserById db j = some f ∧ f.id = j := by
  obtain ⟨u, hu, hj⟩ := h
  unfold findUserById
  cases hfind : db.users.find? (fun u => decide (u.id = j)) with
  | none =>
    rw [List.find?_eq_none] at hfind
    exact absurd (by simpa using hj) (hfind u hu)
  | some f =>
    exact ⟨f, rfl, by simpa using List.find?_some hfind⟩

theorem findUserById_some {db : Db} {j : String} {u : User} (h : findUserById db j = some u) :
    u ∈ db.users ∧ u.id = j :=
  ⟨List.mem_of_find?_eq_some h, by simpa using List.find?_some h⟩

/-- The store `deductCreditsForAppointment`'s transaction leaves when it
commits. -/
theorem deductTransaction_eq {db db' : Db} {user advisor r : User} {now : Nat}
    (h : deductTransaction db user advisor now = some (db', r)) :
    db' =
      { users := (db.users.map (incrementCredits user.id (-APPOINTMENT_CREDIT_COST))).map
          (incrementCredits advisor.id APPOINTMENT_CREDIT_COST)
        creditTransactions := db.creditTransactions ++
          [⟨user.id, -APPOINTMENT_CREDIT_COST, TransactionType.APPOINTMENT_DEDUCTION, none, now⟩,
           ⟨advisor.id, APPOINTMENT_CREDIT_COST, TransactionType.APPOINTMENT_DEDUCTION, none,
             now⟩]
        availabilities := db.availabilities
        appointments := db.appointments
        payouts := db.payouts } := by
  simp only [deductTransaction, Option.bind_eq_bind, Option.bind_eq_some,
    userUpdateCredits_some_iff, creditTransactionCreate, Option.some.injEq,
    Prod.mk.injEq] at h
  obtain ⟨db3, ⟨-, rfl⟩, u, -, db4, ⟨-, rfl⟩, rfl, -⟩ := h
  simp

theorem deductTransaction_isSome (db : Db) (user advisor : User) (now : Nat)
    (hu : ∃ u ∈ db.users, u.id = user.id) (ha : ∃ u ∈ db.users, u.id = advisor.id) :
    ∃ db' r, deductTransaction db user advisor now = some (db', r) := by
  simp only [deductTransaction, Option.bind_eq_bind, Option.bind_eq_some,
    userUpdateCredits_some_iff, creditTransactionCreate, Option.some.injEq,
    Prod.mk.injEq]
  obtain ⟨r, hr, -⟩ := findUserById_isSome_of_exists
    { users := db.users.map (incrementCredits user.id (-APPOINTMENT_CREDIT_COST))
      creditTransactions := db.creditTransactions ++
        [⟨user.id, -APPOINTMENT_CREDIT_COST, TransactionType.APPOINTMENT_DEDUCTION, none, now⟩]
        ++ [⟨advisor.id, APPOINTMENT_CREDIT_COST, TransactionType.APPOINTMENT_DEDUCTION,
          none, now⟩]
      availabilities := db.availabilities
      appointments := db.appointments
      payouts := db.payouts } user.id
    ((exists_id_map_incrementCredits _ _ _ _).mpr hu)
  exact ⟨_, r, _, ⟨hu, rfl⟩, r, hr, _, ⟨(exists_id_map_incrementCredits _ _ _ _).mpr ha, rfl⟩,
    rfl, rfl⟩

/-- The store `checkAndAllocateCredits`'s transaction leaves when it commits. -/
theorem allocateTransaction_eq {db db' : Db} {uid plan : String} {n : Int} {now : Nat}
    {r : SessionUser} (h : allocateTransaction db uid plan n now = some (db', r)) :
    db' =
      { users := db.users.map (incrementCredits uid n)
        creditTransactions := db.creditTransactions ++
          [⟨uid, n, TransactionType.CREDIT_PURCHASE, some plan, now⟩]
        availabilities := db.availabilities
        appointments := db.appointments
        payouts := db.payouts } := by
  simp only [allocateTransaction, Option.bind_eq_bind, Option.bind_eq_some,
    userUpdateCredits_some_iff, creditTransactionCreate, Option.some.injEq,
    Prod.mk.injEq] at h
  obtain ⟨db2, ⟨-, rfl⟩, u, -, rfl, -⟩ := h
  rfl

theorem resolvePlan_cases {has : String → Bool} {plan : String} {n : Int}
    (h : resolvePlan has = some (plan, n)) :
    (plan = "premium" ∧ n = 24) ∨ (plan = "standard" ∧ n = 10) ∨
      (plan = "free_user" ∧ n = 0) := by
  unfold resolvePlan at h
  split_ifs at h <;> simp only [Option.some.injEq, Prod.mk.injEq, PLAN_CREDITS] at h
  · exact Or.inl ⟨h.1.symm, h.2.symm⟩
  · exact Or.inr (Or.inl ⟨h.1.symm, h.2.symm⟩)
  · exact Or.inr (Or.inr ⟨h.1.symm, h.2.symm⟩)

theorem eq_of_unique_id {db : Db} (hu : UniqueUserIds db) {u v : User}
    (h₁ : u ∈ db.users) (h₂ : v ∈ db.users) (h : u.id = v.id) : u = v :=
  List.inj_on_of_nodup_map hu h₁ h₂ h

theorem credits_after_two_updates (users : List User) (i j : String) (d e : Int) (u' : User)
    (h : u' ∈ (users.map (incrementCredits i d)).map (incrementCredits j e)) :
    ∃ u ∈ users, u'.id = u.id ∧
      u'.credits = u.credits + (if u.id = i then d else 0) + (if u.id = j then e else 0) := by
  simp only [List.mem_map] at h
  obtain ⟨v, ⟨u, hu, rfl⟩, rfl⟩ := h
  refine ⟨u, hu, ?_, ?_⟩
  · rw [incrementCredits_id, incrementCredits_id]
  · rw [incrementCredits_credits, incrementCredits_credits, incrementCredits_id]

/-! ## What each action does to the store -/

theorem rethrow_db {α : Type} (label : String) (o : Outcome α) : (rethrow label o).db = o.db := by
  unfold rethrow
  split <;> rfl

theorem rethrow_ok {α : Type} (label : String) (o : Outcome α) (r : α) :
    (rethrow label o).result = .ok r ↔ o.result = .ok r := by
  unfold rethrow
  split
  · rfl
  · rename_i msg hmsg
    simp [hmsg]

/-- The store after `cancelAppointment` is the store before it or the result of
its transaction on an appointment both parties of which the caller may be. -/
theorem cancelAppointmentBody_cases (db : Db) (cid : String) (field : Option String)
    (now : Nat) :
    ((cancelAppointmentBody db cid field now).db = db ∧
      ∃ msg, (cancelAppointmentBody db cid field now).result = .error msg) ∨
    (∃ user id ap, findUserByClerkId db cid = some user ∧ truthy field = some id ∧
      findAppointment db id = some ap ∧ (ap.advisorId = user.id ∨ ap.founderId = user.id) ∧
      cancelTransaction db id ap now = some (cancelAppointmentBody db cid field now).db ∧
      (cancelAppointmentBody db cid field now).result = .ok ()) := by
  unfold cancelAppointmentBody
  split
  · exact Or.inl ⟨rfl, _, rfl⟩
  · rename_i user huser
    split
    · exact Or.inl ⟨rfl, _, rfl⟩
    · rename_i id hid
      split
      · exact Or.inl ⟨rfl, _, rfl⟩
      · rename_i ap hap
        split
        · exact Or.inl ⟨rfl, _, rfl⟩
        · rename_i hauth
          split
          · exact Or.inl ⟨rfl, _, rfl⟩
          · rename_i db1 htx
            refine Or.inr ⟨user, id, ap, huser, hid, hap, ?_, htx, rfl⟩
            by_cases h : ap.advisorId = user.id
            · exact Or.inl h
            · exact Or.inr (by_contra fun h' => hauth ⟨h, h'⟩)

theorem cancelAppointment_cases (db : Db) (auth field : Option String) (now : Nat) :
    ((cancelAppointment db auth field now).db = db ∧
      ∃ msg, (cancelAppointment db auth field now).result = .error msg) ∨
    (∃ cid user id ap, truthy auth = some cid ∧ findUserByClerkId db cid = some user ∧
      truthy field = some id ∧ findAppointment db id = some ap ∧
      (ap.advisorId = user.id ∨ ap.founderId = user.id) ∧
      cancelTransaction db id ap now = some (cancelAppointment db auth field now).db ∧
      (cancelAppointment db auth field now).result = .ok ()) := by
  unfold cancelAppointment
  split
  · exact Or.inl ⟨rfl, _, rfl⟩
  · rename_i cid hcid
    rcases cancelAppointmentBody_cases db cid field now with
      ⟨hdb, msg, hmsg⟩ | ⟨user, id, ap, h1, h2, h3, h4, h5, h6⟩
    · refine Or.inl ⟨by rw [rethrow_db, hdb], ?_⟩
      simp [rethrow, hmsg]
    · refine Or.inr ⟨cid, user, id, ap, hcid, h1, h2, h3, h4, by rw [rethrow_db]; exact h5, ?_⟩
      rw [rethrow_ok]; exact h6

theorem checkAndAllocateCredits_cases (formatMonth : Nat → String) (has : String → Bool)
    (db : Db) (user : Option SessionUser) (now : Nat) :
    (checkAndAllocateCredits formatMonth has db user now).1 = db ∨
    (∃ u plan n ts r, user = some u ∧ u.role = Role.FOUNDER ∧
      resolvePlan has = some (plan, n) ∧ u.transactions = some ts ∧
      alreadyAllocated formatMonth ts plan now = false ∧
      allocateTransaction db u.id plan n now
        = some ((checkAndAllocateCredits formatMonth has db user now).1, r) ∧
      (checkAndAllocateCredits formatMonth has db user now).2 = some r) := by
  unfold checkAndAllocateCredits
  split
  · exact Or.inl rfl
  · rename_i u
    split
    · exact Or.inl rfl
    · rename_i hrole
      split
      · exact Or.inl rfl
      · rename_i plan n hplan
        split
        · exact Or.inl rfl
        · rename_i ts hts
          split
          · exact Or.inl rfl
          · rename_i hskip
            split
            · exact Or.inl rfl
            · rename_i db1 r htx
              exact Or.inr ⟨u, plan, n, ts, r, rfl, not_not.mp hrole, hplan, hts,
                by simpa using hskip, htx, rfl⟩

theorem deductCreditsForAppointment_cases (db : Db) (userId advisorId : String) (now : Nat) :
    ((deductCreditsForAppointment db userId advisorId now).db = db ∧
      ∃ msg, (deductCreditsForAppointment db userId advisorId now).result = .error msg) ∨
    (∃ user advisor r, findUserById db userId = some user ∧
      APPOINTMENT_CREDIT_COST ≤ user.credits ∧ findUserById db advisorId = some advisor ∧
      deductTransaction db user advisor now
        = some ((deductCreditsForAppointment db userId advisorId now).db, r) ∧
      (deductCreditsForAppointment db userId advisorId now).result = .ok r) := by
  unfold deductCreditsForAppointment
  split
  · exact Or.inl ⟨rfl, _, rfl⟩
  · rename_i user huser
    split
    · exact Or.inl ⟨rfl, _, rfl⟩
    · rename_i hcred
      split
      · exact Or.inl ⟨rfl, _, rfl⟩
      · rename_i advisor hadv
        split
        · exact Or.inl ⟨rfl, _, rfl⟩
        · rename_i db1 r htx
          exact Or.inr ⟨user, advisor, r, huser, not_lt.mp hcred, hadv, htx, rfl⟩

theorem cancelAppointment_ok_of {db db' : Db} {auth field : Option String} {now : Nat}
    {cid id : String} {user : User} {ap : Appointment}
    (hcid : truthy auth = some cid) (huser : findUserByClerkId db cid = some user)
    (hid : truthy field = some id) (hap : findAppointment db id = some ap)
    (hparty : ap.advisorId = user.id ∨ ap.founderId = user.id)
    (htx : cancelTransaction db id ap now = some db') :
    (cancelAppointment db auth field now).db = db' ∧
      (cancelAppointment db auth field now).result = .ok () := by
  have hnot : ¬ (ap.advisorId ≠ user.id ∧ ap.founderId ≠ user.id) := by
    rintro ⟨h1, h2⟩
    rcases hparty with h | h
    · exact h1 h
    · exact h2 h
  simp [cancelAppointment, cancelAppointmentBody, hcid, huser, hid, hap, htx, rethrow, hnot]

theorem find?_id_eq_some_of_exists (users : List User) (j : String)
    (h : ∃ u ∈ users, u.id = j) :
    ∃ f, users.find? (fun u => decide (u.id = j)) = some f ∧ f.id = j := by
  obtain ⟨u, hu, hj⟩ := h
  cases hfind : users.find? (fun u => decide (u.id = j)) with
  | none =>
    rw [List.find?_eq_none] at hfind
    exact absurd (by simpa using hj) (hfind u hu)
  | some f =>
    exact ⟨f, rfl, by simpa using List.find?_some hfind⟩

/-! ## Cancelling an appointment -/

/-- C10: a successful `cancelAppointment` on a SCHEDULED appointment (whose
founder and advisor are two users) sets its status to CANCELLED, raises the
founder's credits by exactly 2, lowers the advisor's credits by exactly 2 and
appends exactly two ledger entries, +2 for the founder and -2 for the advisor;
the appointment's start time is never read, and at any other clock reading the
call succeeds as well and leaves the same balances and appointments. -/
theorem cancelAppointment_refunds (db : Db) (authUserId appointmentIdField : Option String)
    (now : Nat) (id : String) (ap : Appointment)
    (hid : truthy appointmentIdField = some id) (hap : findAppointment db id = some ap)
    (_hst : ap.status = AppointmentStatus.SCHEDULED) (hne : ap.founderId ≠ ap.advisorId)
    (hok : (cancelAppointment db authUserId appointmentIdField now).result = .ok ()) :
    findAppointment (cancelAppointment db authUserId appointmentIdField now).db id
        = some { ap with status := AppointmentStatus.CANCELLED } ∧
    (∃ f a, findUserById db ap.founderId = some f ∧ findUserById db ap.advisorId = some a ∧
      findUserById (cancelAppointment db authUserId appointmentIdField now).db ap.founderId
        = some { f with credits := f.credits + 2 } ∧
      findUserById (cancelAppointment db authUserId appointmentIdField now).db ap.advisorId
        = some { a with credits := a.credits - 2 }) ∧
    (cancelAppointment db authUserId appointmentIdField now).db.creditTransactions
      = db.creditTransactions ++
        [⟨ap.founderId, 2, TransactionType.APPOINTMENT_DEDUCTION, none, now⟩,
         ⟨ap.advisorId, -2, TransactionType.APPOINTMENT_DEDUCTION, none, now⟩] ∧
    (∀ now2 : Nat,
      (cancelAppointment db authUserId appointmentIdField now2).result = .ok () ∧
      (cancelAppointment db authUserId appointmentIdField now2).db.users
        = (cancelAppointment db authUserId appointmentIdField now).db.users ∧
      (cancelAppointment db authUserId appointmentIdField now2).db.appointments
        = (cancelAppointment db authUserId appointmentIdField now).db.appointments) := by
  rcases cancelAppointment_cases db authUserId appointmentIdField now with
    ⟨-, msg, hmsg⟩ | ⟨cid, user, id', ap', hcid, huser, hid', hap', hparty, htx, -⟩
  · rw [hok] at hmsg
    cases hmsg
  · obtain rfl : id' = id := by rw [hid] at hid'; exact (Option.some.inj hid').symm
    obtain rfl : ap' = ap := by rw [hap] at hap'; exact (Option.some.inj hap').symm
    obtain ⟨h1, h2, h3, hdb⟩ := (cancelTransaction_some_iff _ _ _ _ _).mp htx
    have hapid : ap'.id = id' := by simpa using List.find?_some hap
    obtain ⟨f, hf, hfid⟩ := find?_id_eq_some_of_exists _ _ h2
    obtain ⟨a, ha, haid⟩ := find?_id_eq_some_of_exists _ _ h3
    refine ⟨?_, ⟨f, a, hf, ha, ?_, ?_⟩, ?_, ?_⟩
    · rw [hdb]
      unfold findAppointment at hap ⊢
      simp only [find?_id_map_setStatus, hap, Option.map_some']
      simp [setStatus, hapid]
    · rw [hdb]
      unfold findUserById
      have hfa : f.id ≠ ap'.advisorId := by rw [hfid]; exact hne
      simp only [find?_id_map_incrementCredits, hf, Option.map_some']
      rw [incrementCredits_of_eq hfid, incrementCredits_of_ne]
      exact hfa
    · rw [hdb]
      unfold findUserById
      have haf : a.id ≠ ap'.founderId := by rw [haid]; exact fun h => hne h.symm
      simp only [find?_id_map_incrementCredits, ha, Option.map_some']
      rw [incrementCredits_of_ne haf, incrementCredits_of_eq haid]
      rfl
    · rw [hdb]
    · intro now2
      obtain ⟨hdb2, hok2⟩ := cancelAppointment_ok_of hcid huser hid hap hparty
        ((cancelTransaction_some_iff db _ id' ap' now2).mpr ⟨h1, h2, h3, rfl⟩)
      refine ⟨hok2, ?_, ?_⟩
      · rw [hdb2, hdb]
      · rw [hdb2, hdb]

theorem deductCreditsForAppointment_ok_of {db : Db} {userId advisorId : String}
    {f a : User} (now : Nat) (hf : findUserById db userId = some f)
    (h2 : APPOINTMENT_CREDIT_COST ≤ f.credits) (ha : findUserById db advisorId = some a) :
    (∃ r, (deductCreditsForAppointment db userId advisorId now).result = .ok r) ∧
    (deductCreditsForAppointment db userId advisorId now).db.users
      = (db.users.map (incrementCredits userId (-APPOINTMENT_CREDIT_COST))).map
          (incrementCredits advisorId APPOINTMENT_CREDIT_COST) := by
  obtain ⟨hfm, hfid⟩ := findUserById_some hf
  obtain ⟨ham, haid⟩ := findUserById_some ha
  obtain ⟨db', r, htx⟩ := deductTransaction_isSome db f a now ⟨f, hfm, rfl⟩ ⟨a, ham, rfl⟩
  have hdb := deductTransaction_eq htx
  have hnot : ¬ f.credits < APPOINTMENT_CREDIT_COST := not_lt.mpr h2
  simp only [deductCreditsForAppointment, hf, ha, htx, hnot, if_false]
  refine ⟨⟨r, rfl⟩, ?_⟩
  rw [hdb, hfid, haid]

theorem incrementCredits_round_trip (i j : String) (u : User) :
    incrementCredits j (-2) (incrementCredits i 2
      (incrementCredits j 2 (incrementCredits i (-2) u))) = u := by
  have hform : ∀ (k : String) (d : Int) (v : User), incrementCredits k d v
      = ⟨v.id, v.clerkUserId, v.role, v.credits + (if v.id = k then d else 0)⟩ := by
    intro k d v
    unfold incrementCredits
    split <;> simp
  obtain ⟨id, cid, role, credits⟩ := u
  simp only [hform, User.mk.injEq, true_and]
  split_ifs <;> omega

/-! ## Booking then cancelling -/

/-- C5: cancel undoes booking on balances.  For a founder with at least 2
credits and an existing advisor, `deductCreditsForAppointment` succeeds; and
when the resulting SCHEDULED appointment (added by the booking action, which
leaves the user table as the deduction left it) is then cancelled by its founder
or its advisor, the cancellation succeeds and the user table, hence the
founder's and the advisor's credits, is exactly what it was before the
booking. -/
theorem cancel_after_booking_restores_balances (db : Db) (founderId advisorId : String)
    (f a : User) (now : Nat)
    (hf : findUserById db founderId = some f) (hcredits : 2 ≤ f.credits)
    (ha : findUserById db advisorId = some a) :
    (∃ r, (deductCreditsForAppointment db founderId advisorId now).result = .ok r) ∧
    ∀ (db2 : Db) (ap : Appointment) (cid : String) (caller : User) (now2 : Nat),
      db2.users = (deductCreditsForAppointment db founderId advisorId now).db.users →
      findAppointment db2 ap.id = some ap → ap.id ≠ "" →
      ap.founderId = founderId → ap.advisorId = advisorId →
      ap.status = AppointmentStatus.SCHEDULED →
      cid ≠ "" → findUserByClerkId db2 cid = some caller →
      (caller.id = founderId ∨ caller.id = advisorId) →
      (cancelAppointment db2 (some cid) (some ap.id) now2).result = .ok () ∧
      (cancelAppointment db2 (some cid) (some ap.id) now2).db.users = db.users ∧
      findUserById (cancelAppointment db2 (some cid) (some ap.id) now2).db founderId = some f ∧
      findUserById (cancelAppointment db2 (some cid) (some ap.id) now2).db advisorId
        = some a := by
  obtain ⟨hok, husers⟩ := deductCreditsForAppointment_ok_of now hf hcredits ha
  refine ⟨hok, ?_⟩
  intro db2 ap cid caller now2 hdb2 hap hapid hfid haid _ hcid hcaller hparty
  rw [husers] at hdb2
  obtain ⟨hfm, hfid'⟩ := findUserById_some hf
  obtain ⟨ham, haid'⟩ := findUserById_some ha
  have hapm : ∃ x ∈ db2.appointments, x.id = ap.id :=
    ⟨ap, List.mem_of_find?_eq_some hap, rfl⟩
  have hex : ∀ j, (∃ u ∈ db.users, u.id = j) → ∃ u ∈ db2.users, u.id = j := by
    intro j hj
    rw [hdb2]
    exact (exists_id_map_incrementCredits _ _ _ _).mpr
      ((exists_id_map_incrementCredits _ _ _ _).mpr hj)
  have htx := (cancelTransaction_some_iff db2 _ ap.id ap now2).mpr
    ⟨hapm, hex _ ⟨f, hfm, by rw [hfid, hfid']⟩, hex _ ⟨a, ham, by rw [haid, haid']⟩, rfl⟩
  have hparty' : ap.advisorId = caller.id ∨ ap.founderId = caller.id := by
    rcases hparty with h | h
    · exact Or.inr (by rw [hfid, h])
    · exact Or.inl (by rw [haid, h])
  have hauth : truthy (some cid) = some cid := by simp [truthy, hcid]
  have hfield : truthy (some ap.id) = some ap.id := by simp [truthy, hapid]
  obtain ⟨hdb3, hok3⟩ := cancelAppointment_ok_of hauth hcaller hfield hap hparty' htx
  have hrestored : (cancelAppointment db2 (some cid) (some ap.id) now2).db.users = db.users := by
    rw [hdb3]
    simp only [hdb2, hfid, haid, List.map_map, APPOINTMENT_CREDIT_COST]
    conv_rhs => rw [← List.map_id db.users]
    apply List.map_congr_left
    intro u _
    exact incrementCredits_round_trip founderId advisorId u
  refine ⟨hok3, hrestored, ?_, ?_⟩
  · unfold findUserById at hf ⊢
    rw [hrestored, hf]
  · unfold findUserById at ha ⊢
    rw [hrestored, ha]

/-! ## Ledger/balance consistency -/

/-- C2: ledger/balance consistency is preserved by every operation.  In a
store where each user's `credits` equals the sum of that user's ledger amounts,
the same holds after `checkAndAllocateCredits`, after
`deductCreditsForAppointment` and after `cancelAppointment`, for every input and
whether the call succeeds or fails. -/
theorem ledger_consistency_preserved (db : Db) (h : LedgerConsistent db) :
    (∀ (formatMonth : Nat → String) (has : String → Bool) (user : Option SessionUser)
        (now : Nat),
      LedgerConsistent (checkAndAllocateCredits formatMonth has db user now).1) ∧
    (∀ (userId advisorId : String) (now : Nat),
      LedgerConsistent (deductCreditsForAppointment db userId advisorId now).db) ∧
    (∀ (authUserId appointmentIdField : Option String) (now : Nat),
      LedgerConsistent (cancelAppointment db authUserId appointmentIdField now).db) := by
  refine ⟨?_, ?_, ?_⟩
  · intro formatMonth has user now
    rcases checkAndAllocateCredits_cases formatMonth has db user now with
      hdb | ⟨u, plan, n, ts, r, -, -, -, -, -, htx, -⟩
    · rw [hdb]; exact h
    · obtain ⟨δ, hs, h0⟩ := allocateTransaction_shifts htx
      exact consistent_of_shifts h hs h0
  · intro userId advisorId now
    rcases deductCreditsForAppointment_cases db userId advisorId now with
      ⟨hdb, -⟩ | ⟨user, advisor, r, -, -, -, htx, -⟩
    · rw [hdb]; exact h
    · obtain ⟨δ, hs, h0⟩ := deductTransaction_shifts htx
      exact consistent_of_shifts h hs h0
  · intro authUserId appointmentIdField now
    rcases cancelAppointment_cases db authUserId appointmentIdField now with
      ⟨hdb, -⟩ | ⟨cid, user, id, ap, -, -, -, -, -, htx, -⟩
    · rw [hdb]; exact h
    · obtain ⟨δ, hs, h0⟩ := cancelTransaction_shifts htx
      exact consistent_of_shifts h hs h0

/-! ## Balances stay non-negative -/

/-- C9, as amended: in a store with non-negative balances and unique user ids,
all balances are still non-negative after `checkAndAllocateCredits` and after
`deductCreditsForAppointment`; after `cancelAppointment` they are whenever the
advisor of the appointment named by the form holds at least 2 credits (the
cancellation debits the advisor 2 credits without looking at the balance). -/
theorem credits_stay_non_negative (db : Db) (h : NonNegativeCredits db)
    (huniq : UniqueUserIds db) :
    (∀ (formatMonth : Nat → String) (has : String → Bool) (user : Option SessionUser)
        (now : Nat),
      NonNegativeCredits (checkAndAllocateCredits formatMonth has db user now).1) ∧
    (∀ (userId advisorId : String) (now : Nat),
      NonNegativeCredits (deductCreditsForAppointment db userId advisorId now).db) ∧
    (∀ (authUserId appointmentIdField : Option String) (now : Nat),
      (∀ id ap a, truthy appointmentIdField = some id → findAppointment db id = some ap →
        findUserById db ap.advisorId = some a → 2 ≤ a.credits) →
      NonNegativeCredits (cancelAppointment db authUserId appointmentIdField now).db) := by
  refine ⟨?_, ?_, ?_⟩
  · intro formatMonth has user now
    rcases checkAndAllocateCredits_cases formatMonth has db user now with
      hdb | ⟨u, plan, n, ts, r, -, -, hplan, -, -, htx, -⟩
    · rw [hdb]; exact h
    · rw [allocateTransaction_eq htx]
      intro v hv
      simp only [List.mem_map] at hv
      obtain ⟨w, hw, rfl⟩ := hv
      have hw0 := h w hw
      rw [incrementCredits_credits]
      rcases resolvePlan_cases hplan with ⟨-, rfl⟩ | ⟨-, rfl⟩ | ⟨-, rfl⟩ <;> split <;> omega
  · intro userId advisorId now
    rcases deductCreditsForAppointment_cases db userId advisorId now with
      ⟨hdb, -⟩ | ⟨user, advisor, r, huser, hcost, -, htx, -⟩
    · rw [hdb]; exact h
    · rw [deductTransaction_eq htx]
      intro v hv
      obtain ⟨w, hw, -, hcred⟩ := credits_after_two_updates _ _ _ _ _ _ hv
      have hw0 := h w hw
      obtain ⟨hum, -⟩ := findUserById_some huser
      rw [hcred]
      simp only [APPOINTMENT_CREDIT_COST] at hcost ⊢
      by_cases hid : w.id = user.id
      · obtain rfl := eq_of_unique_id huniq hw hum hid
        simp only [if_true]
        split <;> omega
      · simp only [hid, if_false]
        split <;> omega
  · intro authUserId appointmentIdField now hadv
    rcases cancelAppointment_cases db authUserId appointmentIdField now with
      ⟨hdb, -⟩ | ⟨cid, user, id, ap, -, -, hid, hap, -, htx, -⟩
    · rw [hdb]; exact h
    · obtain ⟨-, -, h3, hdb⟩ := (cancelTransaction_some_iff _ _ _ _ _).mp htx
      rw [hdb]
      intro v hv
      obtain ⟨w, hw, -, hcred⟩ := credits_after_two_updates _ _ _ _ _ _ hv
      have hw0 := h w hw
      obtain ⟨a, ha, -⟩ := findUserById_isSome_of_exists db _ h3
      have ha2 := hadv id ap a hid hap ha
      obtain ⟨ham, haid⟩ := findUserById_some ha
      rw [hcred]
      by_cases hwa : w.id = ap.advisorId
      · obtain rfl := eq_of_unique_id huniq hw ham (hwa.trans haid.symm)
        simp only [hwa, if_true]
        split <;> omega
      · simp only [hwa, if_false]
        split <;> omega

/-! ## Completing an appointment -/

theorem markAppointmentCompleted_eval {db : Db} {cid : String} {advisor : User}
    {ap : Appointment} (now : Nat) (hcid : cid ≠ "")
    (hadv : findAdvisorByClerkId db cid = some advisor) (hid : ap.id ≠ "")
    (hap : findAppointmentOfAdvisor db ap.id advisor.id = some ap) :
    markAppointmentCompleted db (some cid) (some ap.id) now =
      if ap.status ≠ AppointmentStatus.SCHEDULED then
        ⟨db, .error ("Failed to mark appointment as completed: " ++
          "Only scheduled appointments can be marked as completed")⟩
      else if now < ap.endTime then
        ⟨db, .error ("Failed to mark appointment as completed: " ++
          "Cannot mark appointment as completed before the scheduled end time")⟩
      else
        ⟨{ db with
            appointments := List.map (setStatus ap.id AppointmentStatus.COMPLETED)
              db.appointments },
          .ok (((db.appointments.find? (fun a => decide (a.id = ap.id))).map
            (setStatus ap.id AppointmentStatus.COMPLETED)).getD ap)⟩ := by
  have hmem : ∃ a ∈ db.appointments, a.id = ap.id :=
    ⟨ap, List.mem_of_find?_eq_some hap, rfl⟩
  have hany : db.appointments.any (fun a => decide (a.id = ap.id)) = true := by
    simpa using hmem
  obtain ⟨x, hx⟩ : ∃ x, db.appointments.find? (fun a => decide (a.id = ap.id)) = some x := by
    cases hfind : db.appointments.find? (fun a => decide (a.id = ap.id)) with
    | none =>
      rw [List.find?_eq_none] at hfind
      obtain ⟨a, ha, haid⟩ := hmem
      exact absurd (by simpa using haid) (hfind a ha)
    | some x => exact ⟨x, rfl⟩
  simp only [markAppointmentCompleted, markAppointmentCompletedBody, truthy, hcid, hid,
    if_false, hadv, hap, appointmentUpdateStatus, hany, if_true, findAppointment,
    find?_id_map_setStatus, hx, Option.map_some', Option.getD_some]
  by_cases hst : ap.status = AppointmentStatus.SCHEDULED
  · by_cases hnow : now < ap.endTime
    · simp [hst, hnow, rethrow]
    · simp [hst, hnow, rethrow]
  · simp [hst, rethrow]

theorem find?_of_advisor_map_setStatus (aps : List Appointment) (i j k : String)
    (st : AppointmentStatus) :
    (aps.map (setStatus i st)).find?
        (fun a => decide (a.id = j) && decide (a.advisorId = k))
      = (aps.find? (fun a => decide (a.id = j) && decide (a.advisorId = k))).map
          (setStatus i st) := by
  rw [List.find?_map]
  have hfun : ((fun a : Appointment => decide (a.id = j) && decide (a.advisorId = k))
      ∘ setStatus i st) = fun a => decide (a.id = j) && decide (a.advisorId = k) := by
    funext a
    unfold setStatus
    by_cases h : a.id = i <;> simp [h]
  rw [hfun]

/-- C6: for an appointment that belongs to the calling advisor,
`markAppointmentCompleted` succeeds if and only if the appointment is SCHEDULED
and the server clock is at or after its `endTime`; on success the appointment's
status is COMPLETED, on failure the store is unchanged.  One second (1000 ms)
before `endTime` the call fails; exactly at `endTime` a SCHEDULED appointment
is completed. -/
theorem markAppointmentCompleted_succeeds_iff (db : Db) (cid : String) (advisor : User)
    (ap : Appointment) (now : Nat) (hcid : cid ≠ "")
    (hadv : findAdvisorByClerkId db cid = some advisor) (hid : ap.id ≠ "")
    (hap : findAppointmentOfAdvisor db ap.id advisor.id = some ap) :
    ((∃ r, (markAppointmentCompleted db (some cid) (some ap.id) now).result = .ok r) ↔
      ap.status = AppointmentStatus.SCHEDULED ∧ ap.endTime ≤ now) ∧
    ((∃ r, (markAppointmentCompleted db (some cid) (some ap.id) now).result = .ok r) →
      findAppointmentOfAdvisor (markAppointmentCompleted db (some cid) (some ap.id) now).db
        ap.id advisor.id = some { ap with status := AppointmentStatus.COMPLETED }) ∧
    ((¬ ∃ r, (markAppointmentCompleted db (some cid) (some ap.id) now).result = .ok r) →
      (markAppointmentCompleted db (some cid) (some ap.id) now).db = db) ∧
    (now + 1000 = ap.endTime →
      ¬ ∃ r, (markAppointmentCompleted db (some cid) (some ap.id) now).result = .ok r) ∧
    (ap.status = AppointmentStatus.SCHEDULED → now = ap.endTime →
      ∃ r, (markAppointmentCompleted db (some cid) (some ap.id) now).result = .ok r) := by
  have heval := markAppointmentCompleted_eval now hcid hadv hid hap
  have hiff : (∃ r, (markAppointmentCompleted db (some cid) (some ap.id) now).result = .ok r) ↔
      ap.status = AppointmentStatus.SCHEDULED ∧ ap.endTime ≤ now := by
    rw [heval]
    by_cases hst : ap.status = AppointmentStatus.SCHEDULED
    · by_cases hnow : now < ap.endTime
      · simp [hst, hnow]
      · simp [hst, hnow, not_lt.mp hnow]
    · simp [hst]
  refine ⟨hiff, ?_, ?_, ?_, ?_⟩
  · intro hok
    obtain ⟨hst, hnow⟩ := hiff.mp hok
    rw [heval]
    simp only [hst, ne_eq, not_true_eq_false, if_false, not_lt.mpr hnow]
    unfold findAppointmentOfAdvisor at hap ⊢
    simp only [find?_of_advisor_map_setStatus, hap, Option.map_some']
    simp [setStatus]
  · intro hfail
    rw [hiff] at hfail
    rw [heval]
    by_cases hst : ap.status = AppointmentStatus.SCHEDULED
    · by_cases hnow : now < ap.endTime
      · simp [hst, hnow]
      · exact absurd ⟨hst, not_lt.mp hnow⟩ hfail
    · simp [hst]
  · intro hsec
    rw [hiff]
    rintro ⟨-, hle⟩
    omega
  · intro hst hnow
    exact hiff.mpr ⟨hst, by omega⟩

/-! ## Requesting a payout -/

/-- The payout row `requestPayout` creates for an advisor. -/
theorem requestPayout_cases (db : Db) (auth field : Option String) (now : Nat) :
    ((requestPayout db auth field now).db = db ∧
      ∃ msg, (requestPayout db auth field now).result = .error msg) ∨
    (∃ cid advisor email, truthy auth = some cid ∧ findAdvisorByClerkId db cid = some advisor ∧
      truthy field = some email ∧ findProcessingPayout db advisor.id = none ∧
      1 ≤ advisor.credits ∧
      (requestPayout db auth field now).result
        = .ok ⟨advisor.id, advisor.credits * CREDIT_VALUE, advisor.credits,
            advisor.credits * PLATFORM_FEE_PER_CREDIT,
            advisor.credits * ADVISOR_EARNINGS_PER_CREDIT, email, PayoutStatus.PROCESSING,
            now⟩ ∧
      (requestPayout db auth field now).db.payouts = db.payouts ++
        [⟨advisor.id, advisor.credits * CREDIT_VALUE, advisor.credits,
            advisor.credits * PLATFORM_FEE_PER_CREDIT,
            advisor.credits * ADVISOR_EARNINGS_PER_CREDIT, email, PayoutStatus.PROCESSING,
            now⟩] ∧
      (requestPayout db auth field now).db.users = db.users ∧
      (requestPayout db auth field now).db.creditTransactions = db.creditTransactions) := by
  unfold requestPayout
  split
  · exact Or.inl ⟨rfl, _, rfl⟩
  · rename_i cid hcid
    unfold requestPayoutBody
    split
    · exact Or.inl ⟨rfl, _, rfl⟩
    · rename_i advisor hadv
      split
      · exact Or.inl ⟨rfl, _, rfl⟩
      · rename_i email hemail
        split
        · exact Or.inl ⟨rfl, _, rfl⟩
        · rename_i hnone
          by_cases h0 : advisor.credits = 0
          · simp only [h0, if_true]
            exact Or.inl ⟨rfl, _, rfl⟩
          · by_cases h1 : advisor.credits < 1
            · simp only [h0, h1, if_true, if_false]
              exact Or.inl ⟨rfl, _, rfl⟩
            · simp only [h0, h1, if_false]
              exact Or.inr ⟨cid, advisor, email, hcid, hadv, hemail, hnone, not_lt.mp h1,
                rfl, rfl, rfl, rfl⟩

/-- C3: when `requestPayout` succeeds for an advisor with balance `c`, the
payout it created has credits `c`, amount `10*c`, platformFee `2*c`, netAmount
`8*c` and status PROCESSING, so amount = platformFee + netAmount; it is the one
row added to the payout table.  For `c = 5`: credits 5, amount 50, platformFee
10, netAmount 40. -/
theorem requestPayout_amounts (db : Db) (authUserId paypalEmailField : Option String)
    (now : Nat) (cid : String) (advisor : User) (p : Payout)
    (hcid : truthy authUserId = some cid) (hadv : findAdvisorByClerkId db cid = some advisor)
    (hok : (requestPayout db authUserId paypalEmailField now).result = .ok p) :
    p.advisorId = advisor.id ∧ p.credits = advisor.credits ∧
    p.amount = 10 * advisor.credits ∧ p.platformFee = 2 * advisor.credits ∧
    p.netAmount = 8 * advisor.credits ∧ p.status = PayoutStatus.PROCESSING ∧
    p.amount = p.platformFee + p.netAmount ∧
    (requestPayout db authUserId paypalEmailField now).db.payouts = db.payouts ++ [p] ∧
    (advisor.credits = 5 →
      p.credits = 5 ∧ p.amount = 50 ∧ p.platformFee = 10 ∧ p.netAmount = 40) := by
  rcases requestPayout_cases db authUserId paypalEmailField now with
    ⟨-, msg, hmsg⟩ | ⟨cid', advisor', email, hcid', hadv', -, -, -, hres, hpay, -, -⟩
  · rw [hok] at hmsg
    cases hmsg
  · rw [hcid] at hcid'
    obtain rfl := Option.some.inj hcid'
    rw [hadv] at hadv'
    obtain rfl := Option.some.inj hadv'
    rw [hok] at hres
    obtain rfl := Except.ok.inj hres
    refine ⟨rfl, rfl, ?_, ?_, ?_, rfl, ?_, hpay, ?_⟩
    · simp only [CREDIT_VALUE]; ring
    · simp only [PLATFORM_FEE_PER_CREDIT]; ring
    · simp only [ADVISOR_EARNINGS_PER_CREDIT]; ring
    · simp only [CREDIT_VALUE, PLATFORM_FEE_PER_CREDIT, ADVISOR_EARNINGS_PER_CREDIT]; ring
    · intro h5
      simp only [h5, CREDIT_VALUE, PLATFORM_FEE_PER_CREDIT, ADVISOR_EARNINGS_PER_CREDIT]
      decide

theorem findProcessingPayout_eq_none_iff (db : Db) (advisorId : String) :
    findProcessingPayout db advisorId = none ↔ processingCount db advisorId = 0 := by
  unfold findProcessingPayout processingCount
  rw [List.find?_eq_none, List.length_eq_zero, List.filter_eq_nil_iff]

theorem processingCount_append (db db' : Db) (p : Payout) (advisorId : String)
    (h : db'.payouts = db.payouts ++ [p]) :
    processingCount db' advisorId = processingCount db advisorId +
      (if p.advisorId = advisorId ∧ p.status = PayoutStatus.PROCESSING then 1 else 0) := by
  unfold processingCount
  rw [h, List.filter_append, List.length_append]
  by_cases hp : p.advisorId = advisorId ∧ p.status = PayoutStatus.PROCESSING
  · simp [List.filter_cons, hp]
  · rw [if_neg hp]
    have : (decide (p.advisorId = advisorId) && decide (p.status = PayoutStatus.PROCESSING))
        = false := by
      simpa using hp
    simp [List.filter_cons, this]

/-- C4: in a store where every advisor has at most one PROCESSING payout, the
same holds after any `requestPayout` call; and a request by an advisor who
already has a PROCESSING payout fails and leaves the store, hence the payout
table, unchanged. -/
theorem requestPayout_keeps_one_processing (db : Db) (h : AtMostOneProcessing db)
    (authUserId paypalEmailField : Option String) (now : Nat) :
    AtMostOneProcessing (requestPayout db authUserId paypalEmailField now).db ∧
    (∀ cid advisor, truthy authUserId = some cid → findAdvisorByClerkId db cid = some advisor →
      0 < processingCount db advisor.id →
      (∃ msg, (requestPayout db authUserId paypalEmailField now).result = .error msg) ∧
      (requestPayout db authUserId paypalEmailField now).db = db) := by
  rcases requestPayout_cases db authUserId paypalEmailField now with
    ⟨hdb, hmsg⟩ | ⟨cid, advisor, email, hcid, hadv, -, hnone, -, -, hpay, -, -⟩
  · refine ⟨by rw [hdb]; exact h, ?_⟩
    intro _ _ _ _ _
    exact ⟨hmsg, hdb⟩
  · have hzero := (findProcessingPayout_eq_none_iff db advisor.id).mp hnone
    refine ⟨?_, ?_⟩
    · intro advisorId
      rw [processingCount_append db _ _ advisorId hpay]
      by_cases hid : advisor.id = advisorId
      · subst hid
        rw [hzero]
        split <;> omega
      · have := h advisorId
        simp only [hid, false_and, if_false]
        omega
    · intro cid' advisor' hcid' hadv' hpos
      rw [hcid] at hcid'
      obtain rfl := Option.some.inj hcid'
      rw [hadv] at hadv'
      obtain rfl := Option.some.inj hadv'
      omega

/-! ## Publishing availability -/

theorem findMany_all_unattached (db : Db) (advisorId : String) :
    (availabilityFindMany db advisorId).filter (fun slot => slot.appointment.isNone)
      = availabilityFindMany db advisorId := by
  rw [List.filter_eq_self]
  intro x hx
  unfold availabilityFindMany at hx
  simp only [List.mem_map] at hx
  obtain ⟨y, -, rfl⟩ := hx
  rfl

theorem findMany_ids (db : Db) (advisorId : String) :
    (availabilityFindMany db advisorId).map (fun slot => slot.id)
      = (db.availabilities.filter (fun s => decide (s.advisorId = advisorId))).map
          (fun s => s.id) := by
  unfold availabilityFindMany
  rw [List.map_map]
  rfl

theorem findMany_length (db : Db) (advisorId : String) :
    (availabilityFindMany db advisorId).length
      = (db.availabilities.filter (fun s => decide (s.advisorId = advisorId))).length := by
  unfold availabilityFindMany
  rw [List.length_map]

/-- With slot ids a key of the table, deleting the ids of the advisor's rows
removes exactly the advisor's slots, attached ones included. -/
theorem deleteMany_own_slots (db : Db) (huniq : UniqueSlotIds db) (advisorId : String) :
    (availabilityDeleteMany db
      ((db.availabilities.filter (fun s => decide (s.advisorId = advisorId))).map
        (fun s => s.id))).availabilities
      = db.availabilities.filter (fun x => !decide (x.advisorId = advisorId)) := by
  unfold availabilityDeleteMany
  apply List.filter_congr
  intro x hx
  have hiff : x.id ∈ (db.availabilities.filter (fun s => decide (s.advisorId = advisorId))).map
      (fun s => s.id) ↔ x.advisorId = advisorId := by
    simp only [List.mem_map, List.mem_filter, decide_eq_true_eq]
    constructor
    · rintro ⟨y, ⟨hy, hadv⟩, hid⟩
      obtain rfl : y = x := List.inj_on_of_nodup_map huniq hy hx hid
      exact hadv
    · intro hadv
      exact ⟨x, ⟨hx, hadv⟩, rfl⟩
  by_cases hadv : x.advisorId = advisorId
  · rw [decide_eq_false (not_not_intro (hiff.mpr hadv))]
    simp [hadv]
  · have hnm : x.id ∉ (db.availabilities.filter
        (fun s => decide (s.advisorId = advisorId))).map (fun s => s.id) :=
      fun h => hadv (hiff.mp h)
    rw [decide_eq_true hnm]
    simp [hadv]

theorem filter_own_of_none (db : Db) (advisorId : String)
    (h : (db.availabilities.filter (fun s => decide (s.advisorId = advisorId))).length = 0) :
    db.availabilities
      = db.availabilities.filter (fun x => !decide (x.advisorId = advisorId)) := by
  symm
  rw [List.filter_eq_self]
  intro x hx
  by_contra hcon
  have hadv : x.advisorId = advisorId := by simpa using hcon
  have hmem : x ∈ db.availabilities.filter (fun s => decide (s.advisorId = advisorId)) :=
    List.mem_filter.mpr ⟨hx, by simpa using hadv⟩
  have := List.length_pos_of_mem hmem
  omega

/-- What `setAvailabilitySlots` does to the table when the call passes its
checks (slot ids being a key): every slot of the caller is deleted, with or
without an attached appointment, the slots of other advisors stay, and the new
AVAILABLE slot is appended. -/
theorem setAvailabilitySlots_replaces_own_slots (parseDate : String → Option Nat)
    (freshId : String) (db : Db) (cid : String) (advisor : User) (startTime endTime : String)
    (s e : Nat) (huniq : UniqueSlotIds db) (hcid : cid ≠ "")
    (hadv : findAdvisorByClerkId db cid = some advisor)
    (hs : startTime ≠ "") (he : endTime ≠ "") (hlt : jsStringLt startTime endTime = true)
    (hps : parseDate startTime = some s) (hpe : parseDate endTime = some e) :
    (setAvailabilitySlots parseDate freshId db (some cid) (some startTime) (some endTime)).result
      = .ok ⟨freshId, advisor.id, s, e, SlotStatus.AVAILABLE, none⟩ ∧
    (setAvailabilitySlots parseDate freshId db (some cid) (some startTime)
        (some endTime)).db.availabilities
      = db.availabilities.filter (fun x => !decide (x.advisorId = advisor.id))
        ++ [⟨freshId, advisor.id, s, e, SlotStatus.AVAILABLE, none⟩] := by
  refine ⟨?_, ?_⟩
  · simp [setAvailabilitySlots, setAvailabilitySlotsBody, truthy, hcid, hs, he, hadv, hlt,
      hps, hpe, rethrow]
  · simp only [setAvailabilitySlots, setAvailabilitySlotsBody, truthy, hcid, hs, he, if_false,
      hadv, hlt, Bool.true_eq_false, hps, hpe, rethrow_db, findMany_all_unattached,
      findMany_ids, findMany_length, and_self]
    split
    · rw [deleteMany_own_slots db huniq advisor.id]
    · rename_i hnone
      rw [← filter_own_of_none db advisor.id (by omega)]

/-- C8, on the code: the rows `findMany` returns (lines 44-48, no `include`)
carry no `appointment`, so `!slot.appointment` holds for every slot and
`deleteMany` removes the advisor's attached slots as well.  Advisor `a1` has
the free slot `s1` and the slot `s2` attached to appointment `p1`; after
`setAvailabilitySlots` for 10:00-10:30 the table holds the other advisor's
`s3` and the new slot, and `s2` is gone. -/
theorem setAvailabilitySlots_deletes_attached_slot :
    (setAvailabilitySlots sampleParseDate "s4" dbSlots (some "ca") (some "2025-01-01T10:00")
        (some "2025-01-01T10:30")).result
      = .ok ⟨"s4", "a1", 36000000, 37800000, SlotStatus.AVAILABLE, none⟩ ∧
    (setAvailabilitySlots sampleParseDate "s4" dbSlots (some "ca") (some "2025-01-01T10:00")
        (some "2025-01-01T10:30")).db.availabilities
      = [⟨"s3", "a2", 1000, 2000, SlotStatus.AVAILABLE, none⟩,
         ⟨"s4", "a1", 36000000, 37800000, SlotStatus.AVAILABLE, none⟩] ∧
    (⟨"s2", "a1", 3000, 5000, SlotStatus.BOOKED, some "p1"⟩ : Availability)
      ∈ dbSlots.availabilities ∧
    (⟨"s2", "a1", 3000, 5000, SlotStatus.BOOKED, some "p1"⟩ : Availability)
      ∉ (setAvailabilitySlots sampleParseDate "s4" dbSlots (some "ca")
        (some "2025-01-01T10:00") (some "2025-01-01T10:30")).db.availabilities := by
  refine ⟨rfl, by decide, by decide, by decide⟩

/-! ## The monthly grant -/

theorem alreadyAllocated_eq_head (formatMonth : Nat → String) (ts : List CreditTransaction)
    (plan : String) (now : Nat) :
    alreadyAllocated formatMonth ts plan now =
      match ts.head? with
      | none => false
      | some t => decide (formatMonth t.createdAt = formatMonth now) &&
          decide (t.packageId = some plan) := by
  cases ts <;> rfl

theorem allocateTransaction_isSome (db : Db) (uid plan : String) (n : Int) (now : Nat)
    (hu : ∃ u ∈ db.users, u.id = uid) :
    ∃ db' r, allocateTransaction db uid plan n now = some (db', r) := by
  simp only [allocateTransaction, Option.bind_eq_bind, Option.bind_eq_some,
    userUpdateCredits_some_iff, creditTransactionCreate, Option.some.injEq, Prod.mk.injEq]
  obtain ⟨r, hr, -⟩ := findUserById_isSome_of_exists
    { users := db.users.map (incrementCredits uid n)
      creditTransactions := db.creditTransactions ++
        [⟨uid, n, TransactionType.CREDIT_PURCHASE, some plan, now⟩]
      availabilities := db.availabilities
      appointments := db.appointments
      payouts := db.payouts } uid
    ((exists_id_map_incrementCredits _ _ _ _).mpr hu)
  exact ⟨_, _, _, ⟨hu, rfl⟩, r, hr, rfl, rfl⟩

theorem allocateTransaction_exists {db db' : Db} {uid plan : String} {n : Int} {now : Nat}
    {r : SessionUser} (h : allocateTransaction db uid plan n now = some (db', r)) :
    ∃ u ∈ db.users, u.id = uid := by
  simp only [allocateTransaction, Option.bind_eq_bind, Option.bind_eq_some,
    userUpdateCredits_some_iff] at h
  obtain ⟨db2, ⟨hu, -⟩, -⟩ := h
  exact hu

theorem checkAndAllocateCredits_grant_of {formatMonth : Nat → String} {has : String → Bool}
    {db db' : Db} {user r : SessionUser} {now : Nat} {plan : String} {n : Int}
    {ts : List CreditTransaction} (hrole : user.role = Role.FOUNDER)
    (hplan : resolvePlan has = some (plan, n)) (hts : user.transactions = some ts)
    (hskip : alreadyAllocated formatMonth ts plan now = false)
    (htx : allocateTransaction db user.id plan n now = some (db', r)) :
    checkAndAllocateCredits formatMonth has db (some user) now = (db', some r) := by
  simp [checkAndAllocateCredits, hrole, hplan, hts, hskip, htx]

theorem checkAndAllocateCredits_skip_of {formatMonth : Nat → String} {has : String → Bool}
    {db : Db} {user : SessionUser} {now : Nat} {plan : String} {n : Int}
    {ts : List CreditTransaction}
    (hplan : resolvePlan has = some (plan, n)) (hts : user.transactions = some ts)
    (hskip : alreadyAllocated formatMonth ts plan now = true) :
    checkAndAllocateCredits formatMonth has db (some user) now = (db, some user) := by
  by_cases hrole : user.role = Role.FOUNDER
  · simp [checkAndAllocateCredits, hrole, hplan, hts, hskip]
  · simp [checkAndAllocateCredits, hrole]

theorem latestPurchase_after_grant (db db' : Db) (uid plan : String) (n : Int) (now : Nat)
    (h : db'.creditTransactions = db.creditTransactions ++
      [⟨uid, n, TransactionType.CREDIT_PURCHASE, some plan, now⟩]) :
    latestPurchase db' uid = some ⟨uid, n, TransactionType.CREDIT_PURCHASE, some plan, now⟩ := by
  unfold latestPurchase
  rw [h, List.filter_append]
  simp [List.filter_cons, List.getLast?_concat]

/-- The second of two same-month calls after a first call that granted. -/
theorem second_call_skips {formatMonth : Nat → String} {has : String → Bool}
    {db db1 : Db} {user user2 r : SessionUser} {now1 now2 : Nat} {plan : String} {n : Int}
    {ts2 : List CreditTransaction}
    (hmonth : formatMonth now2 = formatMonth now1)
    (hplan : resolvePlan has = some (plan, n))
    (htx : allocateTransaction db user.id plan n now1 = some (db1, r))
    (hts2 : user2.transactions = some ts2) (hhead : ts2.head? = latestPurchase db1 user.id) :
    checkAndAllocateCredits formatMonth has db1 (some user2) now2 = (db1, some user2) := by
  have hdb1 := allocateTransaction_eq htx
  have hlatest := latestPurchase_after_grant db db1 user.id plan n now1 (by rw [hdb1])
  rw [hlatest] at hhead
  apply checkAndAllocateCredits_skip_of hplan hts2
  rw [alreadyAllocated_eq_head, hhead]
  simp [hmonth]

/-- C7: the monthly grant is idempotent.  Two calls of
`checkAndAllocateCredits` for the same founder with the same active plans, the
second in the same calendar month as the first and seeing the founder's most
recent CREDIT_PURCHASE entry first in `user.transactions`:
when the first call makes the grant (one ledger entry, one increment), the
second call changes nothing and returns its argument; the two calls together
leave the store unchanged or changed by exactly one grant; and when the first
call also saw the most recent CREDIT_PURCHASE entry first, the second call
changes nothing in every case. -/
theorem monthly_grant_idempotent (formatMonth : Nat → String) (has : String → Bool) (db : Db)
    (user user2 : SessionUser) (now1 now2 : Nat) (ts2 : List CreditTransaction)
    (hid : user2.id = user.id) (hrole : user2.role = user.role)
    (hmonth : formatMonth now2 = formatMonth now1)
    (hts2 : user2.transactions = some ts2)
    (hhead : ts2.head? =
      latestPurchase (checkAndAllocateCredits formatMonth has db (some user) now1).1 user.id) :
    ((checkAndAllocateCredits formatMonth has db (some user) now1).1 ≠ db →
      checkAndAllocateCredits formatMonth has
          (checkAndAllocateCredits formatMonth has db (some user) now1).1 (some user2) now2
        = ((checkAndAllocateCredits formatMonth has db (some user) now1).1, some user2) ∧
      ∃ plan n, resolvePlan has = some (plan, n) ∧
        (checkAndAllocateCredits formatMonth has db (some user) now1).1.creditTransactions
          = db.creditTransactions ++
            [⟨user.id, n, TransactionType.CREDIT_PURCHASE, some plan, now1⟩] ∧
        (checkAndAllocateCredits formatMonth has db (some user) now1).1.users
          = db.users.map (incrementCredits user.id n)) ∧
    ((checkAndAllocateCredits formatMonth has
          (checkAndAllocateCredits formatMonth has db (some user) now1).1 (some user2) now2).1
        = db ∨
      ∃ plan n t, resolvePlan has = some (plan, n) ∧
        (checkAndAllocateCredits formatMonth has
          (checkAndAllocateCredits formatMonth has db (some user) now1).1
            (some user2) now2).1.creditTransactions
          = db.creditTransactions ++
            [⟨user.id, n, TransactionType.CREDIT_PURCHASE, some plan, t⟩] ∧
        (checkAndAllocateCredits formatMonth has
          (checkAndAllocateCredits formatMonth has db (some user) now1).1
            (some user2) now2).1.users
          = db.users.map (incrementCredits user.id n)) ∧
    (∀ ts1, user.transactions = some ts1 → ts1.head? = latestPurchase db user.id →
      (checkAndAllocateCredits formatMonth has
          (checkAndAllocateCredits formatMonth has db (some user) now1).1 (some user2) now2).1
        = (checkAndAllocateCredits formatMonth has db (some user) now1).1) := by
  rcases checkAndAllocateCredits_cases formatMonth has db (some user) now1 with
    hdb1 | ⟨u, plan, n, ts, r, hu, -, hplan, -, -, htx, -⟩
  · -- the first call left the store as it was
    rw [hdb1] at hhead ⊢
    refine ⟨fun h => absurd rfl h, ?_, ?_⟩
    · rcases checkAndAllocateCredits_cases formatMonth has db (some user2) now2 with
        hdb2 | ⟨u2, plan, n, ts, r, hu2, -, hplan, -, -, htx, -⟩
      · exact Or.inl hdb2
      · obtain rfl := Option.some.inj hu2
        have hdb2 := allocateTransaction_eq htx
        refine Or.inr ⟨plan, n, now2, hplan, ?_, ?_⟩
        · rw [hdb2, hid]
        · rw [hdb2, hid]
    · intro ts1 hts1 hhead1
      rcases checkAndAllocateCredits_cases formatMonth has db (some user2) now2 with
        hdb2 | ⟨u2, plan, n, ts, r, hu2, hrole2, hplan, hts, hskip, htx, -⟩
      · exact hdb2
      · exfalso
        obtain rfl := Option.some.inj hu2
        rw [hts2] at hts
        obtain rfl := Option.some.inj hts
        have hskip1 : alreadyAllocated formatMonth ts1 plan now1 = false := by
          rw [alreadyAllocated_eq_head, hhead1, ← hhead, ← hmonth, ← alreadyAllocated_eq_head]
          exact hskip
        obtain ⟨db', r', htx1⟩ := allocateTransaction_isSome db user.id plan n now1
          (by rw [← hid]; exact allocateTransaction_exists htx)
        have hfirst := checkAndAllocateCredits_grant_of (hrole ▸ hrole2) hplan hts1 hskip1 htx1
        rw [hfirst] at hdb1
        have hlen := congrArg (fun d : Db => d.creditTransactions.length) hdb1
        simp [allocateTransaction_eq htx1] at hlen
  · -- the first call made the grant
    obtain rfl := Option.some.inj hu
    have hsecond := second_call_skips hmonth hplan htx hts2 hhead
    have hdb1 := allocateTransaction_eq htx
    refine ⟨fun _ => ⟨hsecond, plan, n, hplan, ?_, ?_⟩, ?_, ?_⟩
    · rw [hdb1]
    · rw [hdb1]
    · refine Or.inr ⟨plan, n, now1, hplan, ?_, ?_⟩
      · rw [hsecond, hdb1]
      · rw [hsecond, hdb1]
    · intro _ _ _
      rw [hsecond]

/-! ## Who may cancel -/

/-- C11: `cancelAppointment` fails when no appointment has the submitted id and
when the caller is neither the founder nor the advisor of the appointment; in
both cases the store (statuses, balances, ledger) is unchanged.  The founder
and the advisor are both allowed: when the caller is one of them (and both
parties are users of the store), the call succeeds. -/
theorem cancelAppointment_authorization (db : Db) (authUserId appointmentIdField : Option String)
    (now : Nat) (cid id : String) (user : User)
    (hcid : truthy authUserId = some cid) (huser : findUserByClerkId db cid = some user)
    (hid : truthy appointmentIdField = some id) :
    (findAppointment db id = none →
      (cancelAppointment db authUserId appointmentIdField now).result
        = .error ("Failed to cancel appointment: " ++ "Appointment not found") ∧
      (cancelAppointment db authUserId appointmentIdField now).db = db) ∧
    (∀ ap, findAppointment db id = some ap → ap.advisorId ≠ user.id → ap.founderId ≠ user.id →
      (cancelAppointment db authUserId appointmentIdField now).result
        = .error ("Failed to cancel appointment: " ++
            "You are not authorized to cancel this appointment") ∧
      (cancelAppointment db authUserId appointmentIdField now).db = db) ∧
    (∀ ap, findAppointment db id = some ap →
      (ap.founderId = user.id ∨ ap.advisorId = user.id) →
      (∃ u ∈ db.users, u.id = ap.founderId) → (∃ u ∈ db.users, u.id = ap.advisorId) →
      (cancelAppointment db authUserId appointmentIdField now).result = .ok ()) := by
  refine ⟨?_, ?_, ?_⟩
  · intro hnone
    simp [cancelAppointment, cancelAppointmentBody, hcid, huser, hid, hnone, rethrow]
  · intro ap hap h1 h2
    simp [cancelAppointment, cancelAppointmentBody, hcid, huser, hid, hap, h1, h2, rethrow]
  · intro ap hap hparty hf ha
    have hapm : ∃ x ∈ db.appointments, x.id = id :=
      ⟨ap, List.mem_of_find?_eq_some hap, by simpa using List.find?_some hap⟩
    have htx := (cancelTransaction_some_iff db _ id ap now).mpr ⟨hapm, hf, ha, rfl⟩
    exact (cancelAppointment_ok_of hcid huser hid hap hparty.symm htx).2

/-! ## The order of the payout checks -/

/-- C12: for an authenticated advisor and a non-empty payment email,
`requestPayout` fails with the pending-request error whenever the advisor has a
PROCESSING payout, whatever the balance; otherwise it fails with the balance
check's error whenever the balance is not greater than 0 (message "No credits
available for payout" at balance 0, "Minimum 1 credit required for payout"
below 0); otherwise it succeeds and adds the payout.  A failing request leaves
the store unchanged. -/
theorem requestPayout_check_order (db : Db) (authUserId paypalEmailField : Option String)
    (now : Nat) (cid email : String) (advisor : User)
    (hcid : truthy authUserId = some cid) (hadv : findAdvisorByClerkId db cid = some advisor)
    (hemail : truthy paypalEmailField = some email) :
    (0 < processingCount db advisor.id →
      (requestPayout db authUserId paypalEmailField now).result
        = .error ("Failed to request payout: " ++
            "You already have a pending payout request. Please wait for it to be processed.") ∧
      (requestPayout db authUserId paypalEmailField now).db = db) ∧
    (processingCount db advisor.id = 0 → advisor.credits ≤ 0 →
      (requestPayout db authUserId paypalEmailField now).result
        = .error ("Failed to request payout: " ++
            (if advisor.credits = 0 then "No credits available for payout"
             else "Minimum 1 credit required for payout")) ∧
      (requestPayout db authUserId paypalEmailField now).db = db) ∧
    (processingCount db advisor.id = 0 → 0 < advisor.credits →
      ∃ p, (requestPayout db authUserId paypalEmailField now).result = .ok p ∧
        (requestPayout db authUserId paypalEmailField now).db
          = { db with payouts := db.payouts ++ [p] }) ∧
    ((∀ p, (requestPayout db authUserId paypalEmailField now).result ≠ .ok p) →
      (requestPayout db authUserId paypalEmailField now).db = db) := by
  refine ⟨?_, ?_, ?_, ?_⟩
  · intro hpos
    obtain ⟨x, hx⟩ : ∃ x, findProcessingPayout db advisor.id = some x := by
      cases hfind : findProcessingPayout db advisor.id with
      | none =>
        rw [findProcessingPayout_eq_none_iff] at hfind
        omega
      | some x => exact ⟨x, rfl⟩
    simp [requestPayout, requestPayoutBody, hcid, hadv, hemail, hx, rethrow]
  · intro hzero hle
    have hnone := (findProcessingPayout_eq_none_iff db advisor.id).mpr hzero
    by_cases h0 : advisor.credits = 0
    · simp [requestPayout, requestPayoutBody, hcid, hadv, hemail, hnone, h0, rethrow]
    · have h1 : advisor.credits < 1 := by omega
      simp [requestPayout, requestPayoutBody, hcid, hadv, hemail, hnone, h0, h1, rethrow]
  · intro hzero hpos
    have hnone := (findProcessingPayout_eq_none_iff db advisor.id).mpr hzero
    have h0 : advisor.credits ≠ 0 := by omega
    have h1 : ¬ advisor.credits < 1 := by omega
    simp [requestPayout, requestPayoutBody, hcid, hadv, hemail, hnone, h0, h1, rethrow]
  · intro hfail
    rcases requestPayout_cases db authUserId paypalEmailField now with
      ⟨hdb, -⟩ | ⟨_, _, _, -, -, -, -, -, hres, -, -, -⟩
    · exact hdb
    · exact absurd hres (hfail _)

theorem requestPayout_db_cases (db : Db) (auth field : Option String) (now : Nat) :
    ((requestPayout db auth field now).db = db ∧
      ∃ msg, (requestPayout db auth field now).result = .error msg) ∨
    (∃ p, (requestPayout db auth field now).result = .ok p ∧
      (requestPayout db auth field now).db = { db with payouts := db.payouts ++ [p] }) := by
  unfold requestPayout
  split
  · exact Or.inl ⟨rfl, _, rfl⟩
  · unfold requestPayoutBody
    split
    · exact Or.inl ⟨rfl, _, rfl⟩
    · rename_i advisor _
      split
      · exact Or.inl ⟨rfl, _, rfl⟩
      · split
        · exact Or.inl ⟨rfl, _, rfl⟩
        · by_cases h0 : advisor.credits = 0
          · simp only [h0, if_true]
            exact Or.inl ⟨rfl, _, rfl⟩
          · by_cases h1 : advisor.credits < 1
            · simp only [h0, h1, if_true, if_false]
              exact Or.inl ⟨rfl, _, rfl⟩
            · simp only [h0, h1, if_false]
              exact Or.inr ⟨_, rfl, rfl⟩

/-- C13: `requestPayout` does not deduct the balance.  After every call,
successful or failing, the user table (every user's credits) and the whole
ledger are what they were; a failing call changes nothing at all, and on
success the store differs from the one before only by the one payout row
appended. -/
theorem requestPayout_does_not_deduct (db : Db) (authUserId paypalEmailField : Option String)
    (now : Nat) :
    (requestPayout db authUserId paypalEmailField now).db.users = db.users ∧
    (requestPayout db authUserId paypalEmailField now).db.creditTransactions
      = db.creditTransactions ∧
    (∀ p, (requestPayout db authUserId paypalEmailField now).result = .ok p →
      (requestPayout db authUserId paypalEmailField now).db
        = { db with payouts := db.payouts ++ [p] }) ∧
    ((∀ p, (requestPayout db authUserId paypalEmailField now).result ≠ .ok p) →
      (requestPayout db authUserId paypalEmailField now).db = db) := by
  rcases requestPayout_db_cases db authUserId paypalEmailField now with
    ⟨hdb, msg, hmsg⟩ | ⟨p, hres, hdb⟩
  · refine ⟨by rw [hdb], by rw [hdb], ?_, fun _ => hdb⟩
    intro p hp
    rw [hmsg] at hp
    cases hp
  · refine ⟨by rw [hdb], by rw [hdb], ?_, ?_⟩
    · intro q hq
      rw [hres] at hq
      obtain rfl := Except.ok.inj hq
      exact hdb
    · intro hfail
      exact absurd hres (hfail p)

/-! ## What the grant returns -/

theorem checkAndAllocateCredits_result_cases (formatMonth : Nat → String)
    (has : String → Bool) (db : Db) (user : Option SessionUser) (now : Nat) :
    checkAndAllocateCredits formatMonth has db user now = (db, user) ∨
    checkAndAllocateCredits formatMonth has db user now = (db, none) ∨
    (∃ u plan n r, user = some u ∧ resolvePlan has = some (plan, n) ∧
      allocateTransaction db u.id plan n now
        = some ((checkAndAllocateCredits formatMonth has db user now).1, r) ∧
      (checkAndAllocateCredits formatMonth has db user now).2 = some r) := by
  unfold checkAndAllocateCredits
  split
  · exact Or.inl rfl
  · rename_i u
    split
    · exact Or.inl rfl
    · split
      · exact Or.inl rfl
      · rename_i plan n hplan
        split
        · exact Or.inr (Or.inl rfl)
        · split
          · exact Or.inl rfl
          · split
            · exact Or.inr (Or.inl rfl)
            · rename_i db1 r htx
              exact Or.inr (Or.inr ⟨u, plan, n, r, rfl, hplan, htx, rfl⟩)

theorem allocateTransaction_returns {db db' : Db} {uid plan : String} {n : Int} {now : Nat}
    {r : SessionUser} (h : allocateTransaction db uid plan n now = some (db', r)) :
    r.transactions = none ∧
      findUserById db' uid = some ⟨r.id, r.clerkUserId, r.role, r.credits⟩ := by
  simp only [allocateTransaction, Option.bind_eq_bind, Option.bind_eq_some,
    Option.some.injEq, Prod.mk.injEq] at h
  obtain ⟨db2, -, u, hu, rfl, rfl⟩ := h
  exact ⟨rfl, hu⟩

/-- C14, as amended: when the monthly grant is skipped (the first element of
`user.transactions` has the resolved plan as `packageId` and was created in
the current month), `checkAndAllocateCredits` changes nothing and returns the
user object it was given, not `null`.  Whenever a call changes the store, it
returns the updated user row (without a `transactions` relation); when it
leaves the store as it was, it returns its argument or `null`. -/
theorem skipped_grant_returns_user (formatMonth : Nat → String) (has : String → Bool) (db : Db)
    (user : SessionUser) (now : Nat) (plan : String) (n : Int) (latest : CreditTransaction)
    (rest : List CreditTransaction) (hplan : resolvePlan has = some (plan, n))
    (hts : user.transactions = some (latest :: rest))
    (hmonth : formatMonth latest.createdAt = formatMonth now)
    (hpackage : latest.packageId = some plan) :
    checkAndAllocateCredits formatMonth has db (some user) now = (db, some user) ∧
    (∀ (arg : Option SessionUser) (t : Nat),
      (checkAndAllocateCredits formatMonth has db arg t).1 ≠ db →
      ∃ u r, arg = some u ∧ (checkAndAllocateCredits formatMonth has db arg t).2 = some r ∧
        r.transactions = none ∧
        findUserById (checkAndAllocateCredits formatMonth has db arg t).1 u.id
          = some ⟨r.id, r.clerkUserId, r.role, r.credits⟩) ∧
    (∀ (arg : Option SessionUser) (t : Nat),
      (checkAndAllocateCredits formatMonth has db arg t).1 = db →
      (checkAndAllocateCredits formatMonth has db arg t).2 = arg ∨
      (checkAndAllocateCredits formatMonth has db arg t).2 = none) := by
  refine ⟨?_, ?_, ?_⟩
  · apply checkAndAllocateCredits_skip_of hplan hts
    simp [alreadyAllocated, hmonth, hpackage]
  · intro arg t hne
    rcases checkAndAllocateCredits_result_cases formatMonth has db arg t with
      h | h | ⟨u, plan', n', r, hu, -, htx, hr⟩
    · rw [h] at hne
      exact absurd rfl hne
    · rw [h] at hne
      exact absurd rfl hne
    · obtain ⟨h1, h2⟩ := allocateTransaction_returns htx
      exact ⟨u, r, hu, hr, h1, h2⟩
  · intro arg t heq
    rcases checkAndAllocateCredits_result_cases formatMonth has db arg t with
      h | h | ⟨u, plan', n', r, -, -, htx, -⟩
    · rw [h]; exact Or.inl rfl
    · rw [h]; exact Or.inr rfl
    · exfalso
      rw [heq] at htx
      have hlen := congrArg (fun d : Db => d.creditTransactions.length)
        (allocateTransaction_eq htx)
      simp at hlen

/-! ## Paying for a booking -/

/-- C15: for a founder and an existing advisor (two users),
`deductCreditsForAppointment` returns a failure and changes nothing when the
founder has fewer than 2 credits; with at least 2 credits it succeeds, lowers
the founder's credits by exactly 2, raises the advisor's by exactly 2 and
appends a -2 ledger entry for the founder and a +2 entry for the advisor. -/
theorem deductCreditsForAppointment_effect (db : Db) (userId advisorId : String) (f a : User)
    (now : Nat) (hf : findUserById db userId = some f)
    (ha : findUserById db advisorId = some a) (hne : userId ≠ advisorId) :
    (f.credits < 2 →
      (deductCreditsForAppointment db userId advisorId now).result
        = .error "Insufficient credits to book an appointment" ∧
      (deductCreditsForAppointment db userId advisorId now).db = db) ∧
    (2 ≤ f.credits →
      (∃ r, (deductCreditsForAppointment db userId advisorId now).result = .ok r) ∧
      findUserById (deductCreditsForAppointment db userId advisorId now).db userId
        = some { f with credits := f.credits - 2 } ∧
      findUserById (deductCreditsForAppointment db userId advisorId now).db advisorId
        = some { a with credits := a.credits + 2 } ∧
      (deductCreditsForAppointment db userId advisorId now).db.creditTransactions
        = db.creditTransactions ++
          [⟨userId, -2, TransactionType.APPOINTMENT_DEDUCTION, none, now⟩,
           ⟨advisorId, 2, TransactionType.APPOINTMENT_DEDUCTION, none, now⟩]) := by
  obtain ⟨-, hfid⟩ := findUserById_some hf
  obtain ⟨-, haid⟩ := findUserById_some ha
  refine ⟨?_, ?_⟩
  · intro hlt
    have hlt' : f.credits < APPOINTMENT_CREDIT_COST := hlt
    simp [deductCreditsForAppointment, hf, hlt']
  · intro hge
    obtain ⟨hok, husers⟩ := deductCreditsForAppointment_ok_of now hf hge ha
    refine ⟨hok, ?_, ?_, ?_⟩
    · unfold findUserById at hf ⊢
      have hfa : f.id ≠ advisorId := by rw [hfid]; exact hne
      simp only [husers, find?_id_map_incrementCredits, hf, Option.map_some']
      rw [incrementCredits_of_eq hfid, incrementCredits_of_ne]
      · rfl
      · exact hfa
    · unfold findUserById at ha ⊢
      have haf : a.id ≠ userId := by rw [haid]; exact fun h => hne h.symm
      simp only [husers, find?_id_map_incrementCredits, ha, Option.map_some']
      rw [incrementCredits_of_ne haf, incrementCredits_of_eq haid]
      rfl
    · rcases deductCreditsForAppointment_cases db userId advisorId now with
        ⟨-, msg, hmsg⟩ | ⟨user, advisor, r, huser, -, hadv, htx, -⟩
      · obtain ⟨r, hr⟩ := hok
        rw [hr] at hmsg
        cases hmsg
      · rw [hf] at huser
        obtain rfl := Option.some.inj huser
        rw [ha] at hadv
        obtain rfl := Option.some.inj hadv
        rw [deductTransaction_eq htx, hfid, haid]
        rfl

/-! ## The earnings summary -/

theorem getAdvisorEarnings_eval {startOfMonth getMonth : Nat → Nat} {db : Db}
    {authUserId : Option String} {cid : String} {advisor : User} (now : Nat)
    (hcid : truthy authUserId = some cid)
    (hadv : findAdvisorByClerkId db cid = some advisor) :
    (getAdvisorEarnings startOfMonth getMonth db authUserId now).result
      = .ok ⟨advisor.credits * ADVISOR_EARNINGS_PER_CREDIT,
          (((db.appointments.filter (fun a => decide (a.advisorId = advisor.id) &&
              decide (a.status = AppointmentStatus.COMPLETED))).filter (fun appointment =>
                decide (startOfMonth now ≤ appointment.createdAt))).length : Int) * 2 *
            ADVISOR_EARNINGS_PER_CREDIT,
          (db.appointments.filter (fun a => decide (a.advisorId = advisor.id) &&
              decide (a.status = AppointmentStatus.COMPLETED))).length,
          (if advisor.credits * ADVISOR_EARNINGS_PER_CREDIT > 0 then
            ((advisor.credits * ADVISOR_EARNINGS_PER_CREDIT : Int) : ℚ) /
              ((max 1 (getMonth now + 1) : Nat) : ℚ)
           else 0),
          advisor.credits, advisor.credits * ADVISOR_EARNINGS_PER_CREDIT⟩ := by
  simp only [getAdvisorEarnings, getAdvisorEarningsBody, hcid, hadv, rethrow]

/-- C16, as amended: for an advisor with balance `c` and calendar month number
`m = getMonth() + 1`, `getAdvisorEarnings` returns `totalEarnings = 8*c`; its
`averageEarningsPerMonth` is `totalEarnings / max(1, m)` (the exact quotient)
when `c > 0` and `0` when `c <= 0`. -/
theorem getAdvisorEarnings_totals (startOfMonth getMonth : Nat → Nat) (db : Db)
    (authUserId : Option String) (now : Nat) (cid : String) (advisor : User)
    (hcid : truthy authUserId = some cid)
    (hadv : findAdvisorByClerkId db cid = some advisor) :
    ∃ e, (getAdvisorEarnings startOfMonth getMonth db authUserId now).result = .ok e ∧
      e.totalEarnings = 8 * advisor.credits ∧
      (0 < advisor.credits → e.averageEarningsPerMonth
        = (e.totalEarnings : ℚ) / ((max 1 (getMonth now + 1) : Nat) : ℚ)) ∧
      (advisor.credits ≤ 0 → e.averageEarningsPerMonth = 0) := by
  refine ⟨_, getAdvisorEarnings_eval now hcid hadv, ?_, ?_, ?_⟩
  · simp only [ADVISOR_EARNINGS_PER_CREDIT]
    ring
  · intro hpos
    have h : advisor.credits * ADVISOR_EARNINGS_PER_CREDIT > 0 := by
      simp only [ADVISOR_EARNINGS_PER_CREDIT]; omega
    simp only [h, if_true]
  · intro hle
    have h : ¬ advisor.credits * ADVISOR_EARNINGS_PER_CREDIT > 0 := by
      simp only [ADVISOR_EARNINGS_PER_CREDIT]; omega
    simp only [h, if_false]

/-- C16, as stated, fails: the advisor of `dbOverdrawn` holds -2 credits; in
month 2 the call returns `totalEarnings = -16` and an average of `0`, which is
not `-16 / 2`. -/
theorem getAdvisorEarnings_average_of_negative_balance :
    findAdvisorByClerkId dbOverdrawn "ca" = some ⟨"a1", "ca", Role.ADVISOR, -2⟩ ∧
    ∃ e, (getAdvisorEarnings sampleStartOfMonth sampleGetMonth dbOverdrawn (some "ca")
        2000).result = .ok e ∧
      e.totalEarnings = -16 ∧ e.averageEarningsPerMonth = 0 ∧
      e.averageEarningsPerMonth
        ≠ (e.totalEarnings : ℚ) / ((max 1 (sampleGetMonth 2000 + 1) : Nat) : ℚ) := by
  have hadv : findAdvisorByClerkId dbOverdrawn "ca" = some ⟨"a1", "ca", Role.ADVISOR, -2⟩ := by
    decide
  have hcid : truthy (some "ca") = some "ca" := by decide
  refine ⟨hadv, _, getAdvisorEarnings_eval 2000 hcid hadv, ?_, ?_, ?_⟩
  · decide
  · norm_num [ADVISOR_EARNINGS_PER_CREDIT]
  · norm_num [ADVISOR_EARNINGS_PER_CREDIT, sampleGetMonth]

/-- C17, on the code: the month filter of `getAdvisorEarnings` reads
`createdAt`, not the completion.  The appointment `p1` was created in January
(instant 10) and marked completed in February (instant 5000); asked in February
(instant 6000, month start 1000), the summary counts one completed appointment
and reports `thisMonthEarnings = 0` instead of `1 * 2 * 8 = 16`. -/
theorem getAdvisorEarnings_misses_earlier_created :
    (∃ r, (markAppointmentCompleted dbScheduled (some "ca") (some "p1") 5000).result = .ok r) ∧
    dbCompleted.appointments
      = [⟨"p1", "f1", "a1", 3000, 5000, AppointmentStatus.COMPLETED, none, 10⟩] ∧
    sampleStartOfMonth 6000 ≤ 5000 ∧
    ∃ e, (getAdvisorEarnings sampleStartOfMonth sampleGetMonth dbCompleted (some "ca")
        6000).result = .ok e ∧
      e.completedAppointments = 1 ∧ e.thisMonthEarnings = 0 := by
  have hadv : findAdvisorByClerkId dbCompleted "ca" = some ⟨"a1", "ca", Role.ADVISOR, 2⟩ := by
    decide
  have hcid : truthy (some "ca") = some "ca" := by decide
  refine ⟨⟨_, rfl⟩, by decide, by decide, _, getAdvisorEarnings_eval 6000 hcid hadv, ?_, ?_⟩
  · decide
  · decide

/-! ## The check on the submitted times -/

/-- A pair of strings that is not in JavaScript string order, or has a missing
member, is refused before any write. -/
theorem setAvailabilitySlots_reject (parseDate : String → Option Nat) (freshId : String)
    (db : Db) (auth startField endField : Option String)
    (hno : ¬ ∃ st en, truthy startField = some st ∧ truthy endField = some en ∧
      jsStringLt st en = true) :
    (∃ msg, (setAvailabilitySlots parseDate freshId db auth startField endField).result
      = .error msg) ∧
    (setAvailabilitySlots parseDate freshId db auth startField endField).db = db := by
  unfold setAvailabilitySlots
  cases hauth : truthy auth with
  | none => exact ⟨⟨_, rfl⟩, rfl⟩
  | some cid =>
    unfold setAvailabilitySlotsBody
    cases hadv : findAdvisorByClerkId db cid with
    | none => simp [hadv, rethrow]
    | some advisor =>
      cases hs : truthy startField with
      | none => simp [hadv, hs, rethrow]
      | some st =>
        cases he : truthy endField with
        | none => simp [hadv, hs, he, rethrow]
        | some en =>
          have hnlt : jsStringLt st en = false := by
            cases hlt : jsStringLt st en with
            | false => rfl
            | true => exact absurd ⟨st, en, hs, he, hlt⟩ hno
          simp [hadv, hs, he, rethrow, hnlt]

/-- C18, on the code: line 39 compares the two form strings, not the Date
values of lines 72-73.  The start instant 10:00 UTC is after the end instant
10:30 at UTC+05:00 (05:30 UTC), but as strings "2025-01-01T10:00+00:00" is
before "2025-01-01T10:30+05:00", so the call does not fail: it succeeds and
stores a slot whose `startTime` is after its `endTime`. -/
theorem setAvailabilitySlots_stores_reversed_slot :
    sampleParseOffsets "2025-01-01T10:00+00:00" = some 1735725600000 ∧
    sampleParseOffsets "2025-01-01T10:30+05:00" = some 1735709400000 ∧
    jsStringLt "2025-01-01T10:00+00:00" "2025-01-01T10:30+05:00" = true ∧
    (setAvailabilitySlots sampleParseOffsets "s4" dbSlots (some "ca")
        (some "2025-01-01T10:00+00:00") (some "2025-01-01T10:30+05:00")).result
      = .ok ⟨"s4", "a1", 1735725600000, 1735709400000, SlotStatus.AVAILABLE, none⟩ ∧
    (⟨"s4", "a1", 1735725600000, 1735709400000, SlotStatus.AVAILABLE, none⟩ : Availability)
      ∈ (setAvailabilitySlots sampleParseOffsets "s4" dbSlots (some "ca")
        (some "2025-01-01T10:00+00:00") (some "2025-01-01T10:30+05:00")).db.availabilities ∧
    ¬ (1735725600000 < 1735709400000) := by
  refine ⟨rfl, rfl, by decide, rfl, by decide, by decide⟩

/-! ## Which plan the grant is made for -/

theorem resolvePlan_eq_highestActiveTier (has : String → Bool) :
    resolvePlan has = highestActiveTier has := by
  unfold resolvePlan highestActiveTier tiersAscending PLAN_CREDITS
  cases hp : has "premium" <;> cases hs : has "standard" <;> cases hf : has "free_user" <;>
    simp [List.filter_cons, hp, hs, hf]

/-- C19: for every combination of active plans, `checkAndAllocateCredits`
resolves the plan to the highest active one in the order free_user < standard
< premium (premium if active, else standard if active, else free_user), with
the allotments 0, 10 and 24.  A grant (a founder whose `transactions` do not
show a grant of that plan this month) appends one CREDIT_PURCHASE entry of that
allotment for that plan and raises the balance by it; with no active plan the
call changes nothing and returns its argument. -/
theorem grant_follows_highest_active_plan (formatMonth : Nat → String) (has : String → Bool)
    (db : Db) (user : SessionUser) (now : Nat) :
    resolvePlan has = highestActiveTier has ∧
    (has "premium" = true → resolvePlan has = some ("premium", 24)) ∧
    (has "premium" = false → has "standard" = true → resolvePlan has = some ("standard", 10)) ∧
    (has "premium" = false → has "standard" = false → has "free_user" = true →
      resolvePlan has = some ("free_user", 0)) ∧
    (has "premium" = false → has "standard" = false → has "free_user" = false →
      resolvePlan has = none ∧
      checkAndAllocateCredits formatMonth has db (some user) now = (db, some user)) ∧
    (∀ tier n ts, highestActiveTier has = some (tier, n) → user.role = Role.FOUNDER →
      user.transactions = some ts → alreadyAllocated formatMonth ts tier now = false →
      (∃ u ∈ db.users, u.id = user.id) →
      (checkAndAllocateCredits formatMonth has db (some user) now).1 =
        { users := db.users.map (incrementCredits user.id n)
          creditTransactions := db.creditTransactions ++
            [⟨user.id, n, TransactionType.CREDIT_PURCHASE, some tier, now⟩]
          availabilities := db.availabilities
          appointments := db.appointments
          payouts := db.payouts }) := by
  refine ⟨resolvePlan_eq_highestActiveTier has, ?_, ?_, ?_, ?_, ?_⟩
  · intro hp
    simp [resolvePlan, hp, PLAN_CREDITS]
  · intro hp hs
    simp [resolvePlan, hp, hs, PLAN_CREDITS]
  · intro hp hs hf
    simp [resolvePlan, hp, hs, hf, PLAN_CREDITS]
  · intro hp hs hf
    have hnone : resolvePlan has = none := by simp [resolvePlan, hp, hs, hf]
    refine ⟨hnone, ?_⟩
    by_cases hrole : user.role = Role.FOUNDER
    · simp [checkAndAllocateCredits, hrole, hnone]
    · simp [checkAndAllocateCredits, hrole]
  · intro tier n ts htier hrole hts hskip hu
    rw [← resolvePlan_eq_highestActiveTier] at htier
    obtain ⟨db', r, htx⟩ := allocateTransaction_isSome db user.id tier n now hu
    rw [checkAndAllocateCredits_grant_of hrole htier hts hskip htx]
    exact allocateTransaction_eq htx

/-! ## Two payout requests at once -/

/-- The three store operations of one call, run without interruption, are the
action `requestPayout`. -/
theorem runSchedule_alone (now : Nat) (db : Db) (auth field : Option String)
    (other : PayoutCall) :
    runSchedule now [true, true, true] ⟨db, PayoutCall.start auth field, other⟩
      = ⟨(requestPayout db auth field now).db,
          PayoutCall.finished (requestPayout db auth field now).result, other⟩ := by
  cases hauth : truthy auth with
  | none => simp [runSchedule, payoutStep, requestPayout, hauth]
  | some cid =>
    cases hadv : findAdvisorByClerkId db cid with
    | none =>
      simp [runSchedule, payoutStep, requestPayout, requestPayoutBody, rethrow, hauth, hadv]
    | some advisor =>
      cases hemail : truthy field with
      | none =>
        simp [runSchedule, payoutStep, requestPayout, requestPayoutBody, rethrow, hauth, hadv,
          hemail]
      | some email =>
        cases hpending : findProcessingPayout db advisor.id with
        | some x =>
          simp [runSchedule, payoutStep, requestPayout, requestPayoutBody, rethrow, hauth,
            hadv, hemail, hpending]
        | none =>
          by_cases h0 : advisor.credits = 0
          · simp [runSchedule, payoutStep, requestPayout, requestPayoutBody, rethrow, hauth,
              hadv, hemail, hpending, h0]
          · by_cases h1 : advisor.credits < 1
            · simp [runSchedule, payoutStep, requestPayout, requestPayoutBody, rethrow, hauth,
                hadv, hemail, hpending, h0, h1]
            · simp [runSchedule, payoutStep, requestPayout, requestPayoutBody, rethrow, hauth,
                hadv, hemail, hpending, h0, h1]

/-- C20, on the code: the check for a PROCESSING payout and the creation of the
payout are two separate awaited store operations with nothing that holds the
other call back.  When two requests of advisor `a1` (5 credits, no payout) both
read before either writes, both pass the check, both succeed, and `a1` has two
PROCESSING payouts, in a store that had at most one per advisor. -/
theorem interleaved_requests_create_two_processing :
    AtMostOneProcessing dbPayout ∧
    (runSchedule 60 [true, true, false, false, true, false]
      ⟨dbPayout, PayoutCall.start (some "ca") (some "a1@example.com"),
        PayoutCall.start (some "ca") (some "a1@example.com")⟩).first
      = PayoutCall.finished (.ok samplePayout) ∧
    (runSchedule 60 [true, true, false, false, true, false]
      ⟨dbPayout, PayoutCall.start (some "ca") (some "a1@example.com"),
        PayoutCall.start (some "ca") (some "a1@example.com")⟩).second
      = PayoutCall.finished (.ok samplePayout) ∧
    processingCount (runSchedule 60 [true, true, false, false, true, false]
      ⟨dbPayout, PayoutCall.start (some "ca") (some "a1@example.com"),
        PayoutCall.start (some "ca") (some "a1@example.com")⟩).db "a1" = 2 ∧
    ¬ AtMostOneProcessing (runSchedule 60 [true, true, false, false, true, false]
      ⟨dbPayout, PayoutCall.start (some "ca") (some "a1@example.com"),
        PayoutCall.start (some "ca") (some "a1@example.com")⟩).db := by
  have hcount : processingCount (runSchedule 60 [true, true, false, false, true, false]
      ⟨dbPayout, PayoutCall.start (some "ca") (some "a1@example.com"),
        PayoutCall.start (some "ca") (some "a1@example.com")⟩).db "a1" = 2 := by decide
  refine ⟨?_, rfl, rfl, hcount, ?_⟩
  · intro advisorId
    by_cases h0 : processingCount dbPayout advisorId = 0
    · omega
    · have hpos : 0 < processingCount dbPayout advisorId := Nat.pos_of_ne_zero h0
      unfold processingCount at hpos
      obtain ⟨p, hp⟩ := List.exists_mem_of_length_pos hpos
      obtain ⟨hmem, hcond⟩ := List.mem_filter.mp hp
      simp only [Bool.and_eq_true, decide_eq_true_eq] at hcond
      have hp2 : p = ⟨"a2", 30, 3, 6, 24, "a2@example.com", PayoutStatus.PROCESSING, 5⟩ := by
        simpa [dbPayout] using hmem
      rw [← hcond.1, hp2]
      decide
  · intro hall
    have := hall "a1"
    omega

/-! ## Worked instances -/

/-- C1, on the code: `cancelAppointment` has no check of the appointment's
status.  Called by the founder on the CANCELLED appointment `p1`, and by the
advisor on the COMPLETED appointment `p2`, it succeeds, credits the founder 2
and debits the advisor 2 once more and appends two more ledger entries; and a
second cancel right after a first one succeeds again. -/
theorem cancelAppointment_terminal_refunds_again :
    (cancelAppointment dbTerminal (some "cf") (some "p1") 60).result = .ok () ∧
    (cancelAppointment dbTerminal (some "cf") (some "p1") 60).db.users
      = [⟨"f1", "cf", Role.FOUNDER, 10⟩, ⟨"a1", "ca", Role.ADVISOR, 0⟩] ∧
    (cancelAppointment dbTerminal (some "cf") (some "p1") 60).db.creditTransactions
      = dbTerminal.creditTransactions ++
        [⟨"f1", 2, TransactionType.APPOINTMENT_DEDUCTION, none, 60⟩,
         ⟨"a1", -2, TransactionType.APPOINTMENT_DEDUCTION, none, 60⟩] ∧
    (cancelAppointment dbTerminal (some "ca") (some "p2") 60).result = .ok () ∧
    (cancelAppointment dbTerminal (some "ca") (some "p2") 60).db.users
      = [⟨"f1", "cf", Role.FOUNDER, 10⟩, ⟨"a1", "ca", Role.ADVISOR, 0⟩] ∧
    (cancelAppointment dbTerminal (some "ca") (some "p2") 60).db.appointments
      = [⟨"p1", "f1", "a1", 3000, 5000, AppointmentStatus.CANCELLED, none, 10⟩,
         ⟨"p2", "f1", "a1", 6000, 8000, AppointmentStatus.CANCELLED, none, 30⟩] ∧
    (cancelAppointment (cancelAppointment dbScheduled (some "cf") (some "p1") 60).db
      (some "cf") (some "p1") 61).result = .ok () ∧
    (cancelAppointment (cancelAppointment dbScheduled (some "cf") (some "p1") 60).db
      (some "cf") (some "p1") 61).db.users
      = [⟨"f1", "cf", Role.FOUNDER, 12⟩, ⟨"a1", "ca", Role.ADVISOR, -2⟩] := by
  refine ⟨rfl, ?_, ?_, rfl, ?_, ?_, rfl, ?_⟩ <;> decide

/-- C9, as stated, fails: in `dbPaidOut` every balance is non-negative, and after
the founder cancels the SCHEDULED appointment `p1` the advisor's balance is
`-2`. -/
theorem cancelAppointment_makes_balance_negative :
    NonNegativeCredits dbPaidOut ∧
    (cancelAppointment dbPaidOut (some "cf") (some "p1") 60).result = .ok () ∧
    (cancelAppointment dbPaidOut (some "cf") (some "p1") 60).db.users
      = [⟨"f1", "cf", Role.FOUNDER, 10⟩, ⟨"a1", "ca", Role.ADVISOR, -2⟩] ∧
    ¬ NonNegativeCredits (cancelAppointment dbPaidOut (some "cf") (some "p1") 60).db := by
  refine ⟨by decide, rfl, by decide, by decide⟩

theorem atMostOneProcessing_of_rows (db : Db)
    (h : ∀ p ∈ db.payouts, processingCount db p.advisorId ≤ 1) : AtMostOneProcessing db := by
  intro advisorId
  by_cases h0 : processingCount db advisorId = 0
  · omega
  · have hpos : 0 < processingCount db advisorId := Nat.pos_of_ne_zero h0
    unfold processingCount at hpos
    obtain ⟨p, hp⟩ := List.exists_mem_of_length_pos hpos
    obtain ⟨hmem, hcond⟩ := List.mem_filter.mp hp
    have hid : p.advisorId = advisorId := by
      simp only [Bool.and_eq_true, decide_eq_true_eq] at hcond
      exact hcond.1
    rw [← hid]
    exact h p hmem

theorem ledger_consistency_preserved_witness :
    LedgerConsistent dbScheduled ∧
    LedgerConsistent (cancelAppointment dbScheduled (some "cf") (some "p1") 60).db :=
  ⟨by decide, (ledger_consistency_preserved dbScheduled (by decide)).2.2 (some "cf")
    (some "p1") 60⟩

theorem requestPayout_amounts_witness :
    (requestPayout dbPayout (some "ca") (some "a1@example.com") 60).result = .ok samplePayout ∧
    (samplePayout.credits = 5 ∧ samplePayout.amount = 50 ∧ samplePayout.platformFee = 10 ∧
      samplePayout.netAmount = 40) :=
  ⟨rfl, (requestPayout_amounts dbPayout (some "ca") (some "a1@example.com") 60 "ca"
    ⟨"a1", "ca", Role.ADVISOR, 5⟩ samplePayout rfl rfl rfl).2.2.2.2.2.2.2.2 rfl⟩

theorem requestPayout_keeps_one_processing_witness :
    AtMostOneProcessing dbPayout ∧
    AtMostOneProcessing (requestPayout dbPayout (some "ca") (some "a1@example.com") 60).db ∧
    (requestPayout dbPayout (some "cb") (some "a2@example.com") 60).db = dbPayout :=
  ⟨atMostOneProcessing_of_rows dbPayout (by decide),
    (requestPayout_keeps_one_processing dbPayout
      (atMostOneProcessing_of_rows dbPayout (by decide)) (some "ca") (some "a1@example.com")
      60).1,
    ((requestPayout_keeps_one_processing dbPayout
      (atMostOneProcessing_of_rows dbPayout (by decide)) (some "cb") (some "a2@example.com")
      60).2 "cb" ⟨"a2", "cb", Role.ADVISOR, 3⟩ rfl rfl (by decide)).2⟩

theorem cancel_after_booking_restores_balances_witness :
    (cancelAppointment dbBooked (some "ca") (some "p1") 60).result = .ok () ∧
    (cancelAppointment dbBooked (some "ca") (some "p1") 60).db.users = dbBeforeBooking.users :=
  have h := (cancel_after_booking_restores_balances dbBeforeBooking "f1" "a1"
    ⟨"f1", "cf", Role.FOUNDER, 10⟩ ⟨"a1", "ca", Role.ADVISOR, 0⟩ 10 rfl (by decide) rfl).2
    dbBooked sampleAppointment "ca" ⟨"a1", "ca", Role.ADVISOR, 2⟩ 60 rfl rfl (by decide)
    rfl rfl rfl (by decide) rfl (Or.inr rfl)
  ⟨h.1, h.2.1⟩

theorem markAppointmentCompleted_succeeds_iff_witness :
    (¬ ∃ r, (markAppointmentCompleted dbScheduled (some "ca") (some "p1") 4000).result
      = .ok r) ∧
    (∃ r, (markAppointmentCompleted dbScheduled (some "ca") (some "p1") 5000).result
      = .ok r) :=
  ⟨(markAppointmentCompleted_succeeds_iff dbScheduled "ca" ⟨"a1", "ca", Role.ADVISOR, 2⟩
      sampleAppointment 4000 (by decide) rfl (by decide) rfl).2.2.2.1 rfl,
    (markAppointmentCompleted_succeeds_iff dbScheduled "ca" ⟨"a1", "ca", Role.ADVISOR, 2⟩
      sampleAppointment 5000 (by decide) rfl (by decide) rfl).2.2.2.2 rfl rfl⟩

theorem monthly_grant_idempotent_witness :
    (checkAndAllocateCredits sampleFormatMonth hasStandard dbNewFounder
      (some sampleFounder) 10).1.users = [⟨"f1", "cf", Role.FOUNDER, 10⟩] ∧
    checkAndAllocateCredits sampleFormatMonth hasStandard
        (checkAndAllocateCredits sampleFormatMonth hasStandard dbNewFounder
          (some sampleFounder) 10).1 (some sampleFounderAgain) 20
      = ((checkAndAllocateCredits sampleFormatMonth hasStandard dbNewFounder
          (some sampleFounder) 10).1, some sampleFounderAgain) :=
  ⟨by decide,
    ((monthly_grant_idempotent sampleFormatMonth hasStandard dbNewFounder sampleFounder
      sampleFounderAgain 10 20
      [⟨"f1", 10, TransactionType.CREDIT_PURCHASE, some "standard", 10⟩]
      rfl rfl rfl rfl rfl).1 (by decide)).1⟩

theorem credits_stay_non_negative_witness :
    NonNegativeCredits dbScheduled ∧
    NonNegativeCredits (cancelAppointment dbScheduled (some "cf") (some "p1") 60).db :=
  ⟨by decide,
    (credits_stay_non_negative dbScheduled (by decide) (by decide)).2.2 (some "cf")
      (some "p1") 60 (by
        intro id ap a hid hap ha
        have hid' : id = "p1" := by
          simp only [truthy] at hid
          exact (Option.some.inj hid).symm
        subst hid'
        have hap' : findAppointment dbScheduled "p1" = some sampleAppointment := rfl
        rw [hap'] at hap
        obtain rfl := Option.some.inj hap
        have ha' : findUserById dbScheduled sampleAppointment.advisorId
            = some ⟨"a1", "ca", Role.ADVISOR, 2⟩ := rfl
        rw [ha'] at ha
        obtain rfl := Option.some.inj ha
        decide)⟩

theorem cancelAppointment_refunds_witness :
    findAppointment (cancelAppointment dbScheduled (some "cf") (some "p1") 60).db "p1"
      = some ⟨"p1", "f1", "a1", 3000, 5000, AppointmentStatus.CANCELLED, none, 10⟩ ∧
    (cancelAppointment dbScheduled (some "cf") (some "p1") 60).db.creditTransactions
      = dbScheduled.creditTransactions ++
        [⟨"f1", 2, TransactionType.APPOINTMENT_DEDUCTION, none, 60⟩,
         ⟨"a1", -2, TransactionType.APPOINTMENT_DEDUCTION, none, 60⟩] :=
  have h := cancelAppointment_refunds dbScheduled (some "cf") (some "p1") 60 "p1"
    sampleAppointment rfl rfl rfl (by decide) rfl
  ⟨h.1, h.2.2.1⟩

/-- C14, as stated, fails: at the second login of the month the grant is
skipped and the call returns the user object it was given, not `null`. -/
theorem skipped_grant_is_not_null :
    (checkAndAllocateCredits sampleFormatMonth hasStandard
      (checkAndAllocateCredits sampleFormatMonth hasStandard dbNewFounder
        (some sampleFounder) 10).1 (some sampleFounderAgain) 20).1
      = (checkAndAllocateCredits sampleFormatMonth hasStandard dbNewFounder
        (some sampleFounder) 10).1 ∧
    (checkAndAllocateCredits sampleFormatMonth hasStandard
      (checkAndAllocateCredits sampleFormatMonth hasStandard dbNewFounder
        (some sampleFounder) 10).1 (some sampleFounderAgain) 20).2
      = some sampleFounderAgain ∧
    (checkAndAllocateCredits sampleFormatMonth hasStandard
      (checkAndAllocateCredits sampleFormatMonth hasStandard dbNewFounder
        (some sampleFounder) 10).1 (some sampleFounderAgain) 20).2 ≠ none := by
  refine ⟨by decide, by decide, by decide⟩

theorem cancelAppointment_authorization_witness :
    ((cancelAppointment dbSlots (some "cb") (some "p1") 60).result
        = .error ("Failed to cancel appointment: " ++
            "You are not authorized to cancel this appointment") ∧
      (cancelAppointment dbSlots (some "cb") (some "p1") 60).db = dbSlots) ∧
    ((cancelAppointment dbSlots (some "cb") (some "p9") 60).result
        = .error ("Failed to cancel appointment: " ++ "Appointment not found") ∧
      (cancelAppointment dbSlots (some "cb") (some "p9") 60).db = dbSlots) :=
  ⟨(cancelAppointment_authorization dbSlots (some "cb") (some "p1") 60 "cb" "p1"
      ⟨"a2", "cb", Role.ADVISOR, 0⟩ rfl rfl rfl).2.1 sampleAppointment rfl (by decide)
      (by decide),
    (cancelAppointment_authorization dbSlots (some "cb") (some "p9") 60 "cb" "p9"
      ⟨"a2", "cb", Role.ADVISOR, 0⟩ rfl rfl rfl).1 rfl⟩

theorem requestPayout_check_order_witness :
    ((requestPayout dbPayout (some "cb") (some "a2@example.com") 60).result
        = .error ("Failed to request payout: " ++
            "You already have a pending payout request. Please wait for it to be processed.") ∧
      (requestPayout dbPayout (some "cb") (some "a2@example.com") 60).db = dbPayout) ∧
    ((requestPayout dbSlots (some "ca") (some "a1@example.com") 60).result
        = .error ("Failed to request payout: " ++ "No credits available for payout") ∧
      (requestPayout dbSlots (some "ca") (some "a1@example.com") 60).db = dbSlots) :=
  ⟨(requestPayout_check_order dbPayout (some "cb") (some "a2@example.com") 60 "cb"
      "a2@example.com" ⟨"a2", "cb", Role.ADVISOR, 3⟩ rfl rfl rfl).1 (by decide),
    (requestPayout_check_order dbSlots (some "ca") (some "a1@example.com") 60 "ca"
      "a1@example.com" ⟨"a1", "ca", Role.ADVISOR, 0⟩ rfl rfl rfl).2.1 (by decide)
      (by decide)⟩

theorem requestPayout_does_not_deduct_witness :
    (requestPayout dbPayout (some "ca") (some "a1@example.com") 60).db.users = dbPayout.users ∧
    (requestPayout dbPayout (some "ca") (some "a1@example.com") 60).db
      = { dbPayout with payouts := dbPayout.payouts ++ [samplePayout] } :=
  ⟨(requestPayout_does_not_deduct dbPayout (some "ca") (some "a1@example.com") 60).1,
    (requestPayout_does_not_deduct dbPayout (some "ca") (some "a1@example.com") 60).2.2.1
      samplePayout rfl⟩

theorem skipped_grant_returns_user_witness :
    checkAndAllocateCredits sampleFormatMonth hasStandard
        (checkAndAllocateCredits sampleFormatMonth hasStandard dbNewFounder
          (some sampleFounder) 10).1 (some sampleFounderAgain) 20
      = ((checkAndAllocateCredits sampleFormatMonth hasStandard dbNewFounder
          (some sampleFounder) 10).1, some sampleFounderAgain) :=
  (skipped_grant_returns_user sampleFormatMonth hasStandard
    (checkAndAllocateCredits sampleFormatMonth hasStandard dbNewFounder
      (some sampleFounder) 10).1 sampleFounderAgain 20 "standard" 10
    ⟨"f1", 10, TransactionType.CREDIT_PURCHASE, some "standard", 10⟩ [] rfl rfl rfl rfl).1

theorem deductCreditsForAppointment_effect_witness :
    findUserById (deductCreditsForAppointment dbBeforeBooking "f1" "a1" 10).db "f1"
      = some ⟨"f1", "cf", Role.FOUNDER, 8⟩ ∧
    findUserById (deductCreditsForAppointment dbBeforeBooking "f1" "a1" 10).db "a1"
      = some ⟨"a1", "ca", Role.ADVISOR, 2⟩ ∧
    ((deductCreditsForAppointment dbNewFounder "f1" "f1" 10).result
        = .error "Insufficient credits to book an appointment") :=
  have h := (deductCreditsForAppointment_effect dbBeforeBooking "f1" "a1"
    ⟨"f1", "cf", Role.FOUNDER, 10⟩ ⟨"a1", "ca", Role.ADVISOR, 0⟩ 10 rfl rfl (by decide)).2
    (by decide)
  ⟨h.2.1, h.2.2.1, rfl⟩

theorem getAdvisorEarnings_totals_witness :
    ∃ e, (getAdvisorEarnings sampleStartOfMonth sampleGetMonth dbPayout (some "ca")
        2000).result = .ok e ∧
      e.totalEarnings = 40 ∧ e.averageEarningsPerMonth = 20 := by
  obtain ⟨e, he, ht, hpos, -⟩ := getAdvisorEarnings_totals sampleStartOfMonth sampleGetMonth
    dbPayout (some "ca") 2000 "ca" ⟨"a1", "ca", Role.ADVISOR, 5⟩ rfl rfl
  refine ⟨e, he, ht, ?_⟩
  rw [hpos (by decide), ht]
  norm_num [sampleGetMonth]

theorem grant_follows_highest_active_plan_witness :
    resolvePlan hasStandard = some ("standard", 10) ∧
    (checkAndAllocateCredits sampleFormatMonth hasStandard dbNewFounder
        (some sampleFounder) 10).1.creditTransactions
      = [⟨"f1", 10, TransactionType.CREDIT_PURCHASE, some "standard", 10⟩] :=
  ⟨(grant_follows_highest_active_plan sampleFormatMonth hasStandard dbNewFounder
      sampleFounder 10).2.2.1 rfl rfl,
    congrArg Db.creditTransactions
      ((grant_follows_highest_active_plan sampleFormatMonth hasStandard dbNewFounder
        sampleFounder 10).2.2.2.2.2 "standard" 10 [] rfl rfl rfl rfl
        ⟨⟨"f1", "cf", Role.FOUNDER, 0⟩, by decide, rfl⟩)⟩

end StartupAdvisory
